import Mathlib

/-!
Verification of the sale-sense-tracker price-tracking pipeline.

This file gives a shallow embedding of the repository's Supabase edge
functions (scraper, trackers, check-alerts, update-all-prices, products)
and proves or refutes the frozen specification claims about them.

Modelling conventions:
* JavaScript numbers are modelled as exact rationals `JQ` (an executable
  numerator/denominator pair with a positive denominator maintained by
  construction), together with `JSNum` adding the `NaN` value produced by
  `parseFloat` on non-numeric text.  Floating-point rounding of JS doubles
  is abstracted away; all prices in scope are short decimals.
* Strings are Lean `String`s; the handful of JS string operations used by
  the source (`toLowerCase`, `includes`, `split`, `replace`, `trim`,
  `substring`) are re-implemented over `List Char` restricted to the ASCII
  range actually exercised by the source (domain fragments, URL slugs,
  HTML phrases).
* Regular-expression matching over raw HTML is not re-implemented.  A raw
  page is modelled as the raw `html` string (used by the source only for
  plain-substring availability checks) together with, for each ordered
  pattern list of the source, the list of per-pattern capture results the
  regex engine would produce (`none` when the pattern does not match).
  The strategy-chain logic itself (ordering, guards, validity checks,
  fallbacks) is translated from the source.
* The database is modelled as in-memory tables with an insertion clock
  standing in for `now()` timestamps.  Remote `functions.invoke` calls are
  modelled as invoking the target function's model; the supabase-js v2
  client catches every failure internally (a `FunctionsHttpError` for a
  non-2xx response, a `FunctionsFetchError` for a network failure) and
  *resolves* with a data/error pair — it never rejects, which is why the
  repository's own call sites inspect `result.error` on the awaited
  value — so a settled invoke promise is always fulfilled.
-/

instance {ε α : Type} [DecidableEq ε] [DecidableEq α] : DecidableEq (Except ε α) :=
  fun a b =>
  match a, b with
  | .ok x, .ok y =>
      if h : x = y then isTrue (by rw [h])
      else isFalse (by intro hh; cases hh; exact h rfl)
  | .error x, .error y =>
      if h : x = y then isTrue (by rw [h])
      else isFalse (by intro hh; cases hh; exact h rfl)
  | .ok _, .error _ => isFalse (by intro h; cases h)
  | .error _, .ok _ => isFalse (by intro h; cases h)

/-! ## Executable rationals modelling JS numbers -/

/-- An executable rational: JS numbers are modelled as exact fractions.
The denominator is kept positive by all constructors used in this file. -/
structure JQ where
  num : Int
  den : Nat
  deriving DecidableEq, Repr

/-- Wellformedness: the denominator is positive. -/
def JQ.WF (q : JQ) : Prop := 0 < q.den

instance (q : JQ) : Decidable q.WF := by unfold JQ.WF; infer_instance

def JQ.ofInt (n : Int) : JQ := ⟨n, 1⟩

/-- Value of a `JQ` as a Mathlib rational (semantic bridge). -/
def JQ.toRat (q : JQ) : ℚ := (q.num : ℚ) / (q.den : ℚ)

/-- JS `a <= b` on numbers (denominators positive). -/
def jqLe (a b : JQ) : Bool := decide (a.num * b.den ≤ b.num * a.den)

/-- JS `a < b` on numbers (denominators positive). -/
def jqLt (a b : JQ) : Bool := decide (a.num * b.den < b.num * a.den)

/-- Value equality of two `JQ`s (denominators positive). -/
def jqEqv (a b : JQ) : Bool := decide (a.num * b.den = b.num * a.den)

def jqAdd (a b : JQ) : JQ := ⟨a.num * b.den + b.num * a.den, a.den * b.den⟩

/-- Multiplication by an integer (used for `avg * 100`). -/
def jqMulNat (a : JQ) (n : Nat) : JQ := ⟨a.num * n, a.den⟩

/-- Division by a positive natural (used for `sum / prices.length`). -/
def jqDivNat (a : JQ) (n : Nat) : JQ := ⟨a.num, a.den * n⟩

/-- `Math.round x` for JS: floor of `x + 1/2` (half rounds up). -/
def jqRound (a : JQ) : Int := Int.fdiv (2 * a.num + a.den) (2 * a.den)

/-- A JS number as produced by `parseFloat`: either `NaN` or a value. -/
inductive JSNum where
  | nan : JSNum
  | val : JQ → JSNum
  deriving DecidableEq, Repr

/-- JS truthiness of a nullable number variable (`null`, `NaN` and `0`
are falsy). -/
def jsNumTruthy : Option JSNum → Bool
  | none => false
  | some .nan => false
  | some (.val q) => decide (q.num ≠ 0)

/-! ## ASCII string operations used by the source -/

/-- ASCII lower-casing of one character, modelling JS `toLowerCase` on the
ASCII inputs exercised by the source. -/
def lowerChar (c : Char) : Char :=
  if 'A' ≤ c ∧ c ≤ 'Z' then Char.ofNat (c.toNat + 32) else c

/-- JS `String.prototype.toLowerCase` (ASCII model). -/
def jsToLower (s : String) : String := String.mk (s.toList.map lowerChar)

/-- Does `pat` occur as a contiguous run inside `l`? -/
def listContains (l pat : List Char) : Bool :=
  match l with
  | [] => decide (pat = [])
  | _ :: t => decide (pat = l.take pat.length) || listContains t pat

/-- JS `String.prototype.includes`. -/
def strIncludes (s pat : String) : Bool := listContains s.toList pat.toList

/-- Split a character list at every occurrence of `sep`, JS
`String.prototype.split` with a one-character separator. -/
def splitOnCharAux (sep : Char) : List Char → List Char → List (List Char)
  | [], acc => [acc.reverse]
  | x :: xs, acc =>
      if x = sep then acc.reverse :: splitOnCharAux sep xs []
      else splitOnCharAux sep xs (x :: acc)

def splitOnChar (sep : Char) (l : List Char) : List (List Char) :=
  splitOnCharAux sep l []

/-- JS `String.prototype.trim` (ASCII whitespace model). -/
def jsTrim (s : String) : String :=
  String.mk (((s.toList.dropWhile (· = ' ')).reverse.dropWhile (· = ' ')).reverse)

/-- JS `String.prototype.substring 0 n` / truncation to `n` characters. -/
def jsTake (s : String) (n : Nat) : String := String.mk (s.toList.take n)

/-- Remove every occurrence of one character, modelling
`replace(/c/g, "")`. -/
def removeChar (c : Char) (s : String) : String :=
  String.mk (s.toList.filter (· ≠ c))

/-! ## URL-derived name fallback (scraper/index.ts, `extractNameFromUrl`) -/

/-- `\w` of JS regexes (ASCII word character). -/
def isWordChar (c : Char) : Bool := c.isAlphanum || c = '_'

/-- ASCII upper-casing of one character (JS `toUpperCase` on the inputs in
scope). -/
def upperChar (c : Char) : Char :=
  if 'a' ≤ c ∧ c ≤ 'z' then Char.ofNat (c.toNat - 32) else c

/-- `replace(/\b\w/g, l => l.toUpperCase())`: upper-case every word
character not preceded by a word character. -/
def titleCaseGo (prevWord : Bool) : List Char → List Char
  | [] => []
  | c :: cs =>
      (if isWordChar c && !prevWord then upperChar c else c) ::
        titleCaseGo (isWordChar c) cs

def titleCase (s : String) : String := String.mk (titleCaseGo false s.toList)

/-- `replace(/[?#].*$/, "")`: drop everything from the first `?` or `#`
on (faithful for the newline-free strings URLs are). -/
def stripQueryFragment (s : String) : String :=
  String.mk (s.toList.takeWhile (fun c => c ≠ '?' && c ≠ '#'))

/-- `replace(/[-_]/g, " ")`. -/
def separatorsToSpaces (s : String) : String :=
  String.mk (s.toList.map (fun c => if c = '-' || c = '_' then ' ' else c))

/-- The slug the source picks: the last `/`-segment, or the one before it
when the last is empty (JS `urlParts[len-1] || urlParts[len-2]`; the
out-of-range access JS would make on a single-element split is modelled
as the empty string). -/
def lastUrlPart (url : String) : String :=
  let urlParts := (splitOnChar '/' url.toList).map String.mk
  let last := urlParts.getLastD ""
  if last ≠ "" then last
  else if 2 ≤ urlParts.length then (urlParts[urlParts.length - 2]?).getD ""
  else ""

/-- `extractNameFromUrl` from `supabase/functions/scraper/index.ts`. -/
def extractNameFromUrl (url : String) : String :=
  jsTake (titleCase (separatorsToSpaces (stripQueryFragment (lastUrlPart url)))) 100

/-- Modelled from the spec's words for comparison: slugify the *last
non-empty* `/`-segment of the URL (strip query/fragment, separators to
spaces, title-case, truncate to 100 characters). -/
def specNameFromUrl (url : String) : String :=
  let seg := (((splitOnChar '/' url.toList).map String.mk).reverse.find?
    (· ≠ "")).getD ""
  jsTake (titleCase (separatorsToSpaces (stripQueryFragment seg))) 100

/-! ## Platform resolution (trackers/index.ts, `extractPlatform`) -/

inductive Platform where
  | Amazon | Flipkart | Myntra | Ajio | Snapdeal
  deriving DecidableEq, Repr

def Platform.toStr : Platform → String
  | .Amazon => "Amazon"
  | .Flipkart => "Flipkart"
  | .Myntra => "Myntra"
  | .Ajio => "Ajio"
  | .Snapdeal => "Snapdeal"

/-- `extractPlatform` from `supabase/functions/trackers/index.ts` (and its
identical copy in the unnamed trackers function): case-insensitive
substring matching of fixed domain fragments against the whole URL
string, first match wins; `none` models the JS `null` result. -/
def extractPlatform (url : String) : Option Platform :=
  let urlLower := jsToLower url
  if strIncludes urlLower "amazon." then some .Amazon
  else if strIncludes urlLower "flipkart." then some .Flipkart
  else if strIncludes urlLower "myntra." then some .Myntra
  else if strIncludes urlLower "ajio." then some .Ajio
  else if strIncludes urlLower "snapdeal." then some .Snapdeal
  else none

/-- The fixed fragment table in the spec's order. -/
def platformTable : List (String × Platform) :=
  [("amazon.", .Amazon), ("flipkart.", .Flipkart), ("myntra.", .Myntra),
   ("ajio.", .Ajio), ("snapdeal.", .Snapdeal)]

/-- Modelled from the spec's words for comparison: first-match lookup of
the fragment table against the lower-cased URL. -/
def resolvePlatformSpec (url : String) : Option Platform :=
  (platformTable.find? (fun fp => strIncludes (jsToLower url) fp.1)).map (·.2)

/-- Hostname of a URL, modelling the `new URL(url).hostname` call in the
zod refinements of the scraper and trackers request schemas: the text
after `"://"` up to the first `/`, `?`, `#` or `:` (`none` when the
`"://"` marker is absent, where the JS constructor would throw for the
URLs in scope). -/
def urlHostname (url : String) : Option String :=
  match splitOnChar ':' url.toList with
  | _scheme :: rest₀ :: _ =>
      match rest₀ with
      | '/' :: '/' :: hostPart =>
          some (String.mk (hostPart.takeWhile
            (fun c => c ≠ '/' && c ≠ '?' && c ≠ '#')))
      | _ => none
  | _ => none

/-! ## The extractor (scraper/index.ts, `scrapeAmazon` etc.) -/

/-- `parseFloat` restricted to the capture language of the price patterns
(sign, digits, optional fraction; no exponent or surrounding text, which
the source's captures cannot contain): `NaN` when no digit is found. -/
def parseFloatJS (s : String) : JSNum :=
  let cs := s.toList
  let signed : Int × List Char :=
    match cs with
    | '-' :: t => (-1, t)
    | '+' :: t => (1, t)
    | _ => (1, cs)
  let intDigits := signed.2.takeWhile Char.isDigit
  let rest := signed.2.dropWhile Char.isDigit
  let fracDigits :=
    match rest with
    | '.' :: t => t.takeWhile Char.isDigit
    | _ => []
  if intDigits.isEmpty && fracDigits.isEmpty then .nan
  else
    let digitsVal (l : List Char) : Nat := l.foldl (fun a c => a * 10 + (c.toNat - 48)) 0
    .val ⟨signed.1 * (digitsVal intDigits * 10 ^ fracDigits.length + digitsVal fracDigits),
          10 ^ fracDigits.length⟩

/-- The image value of a JSON-LD block (`jsonData.image` may be a string
or an array of strings). -/
inductive JImage where
  | str : String → JImage
  | arr : List String → JImage
  deriving DecidableEq, Repr

/-- A parsed JSON-LD product descriptor, keeping exactly the fields the
source reads.  `offersPrice` is `some v` when `jsonData.offers?.price`
is truthy, with `v` the result of `parseFloat(String(...))` on it;
`offersAvailability` likewise holds a truthy `jsonData.offers?.availability`
string (only read by the Myntra scraper). -/
structure JsonLd where
  name : Option String
  offersPrice : Option JSNum
  image : Option JImage
  offersAvailability : Option String
  deriving DecidableEq, Repr

/-- Outcome of `JSON.parse` on a matched JSON-LD script block. -/
inductive JsonLdParse where
  | fail : JsonLdParse
  | ok : JsonLd → JsonLdParse
  deriving DecidableEq, Repr

/-- A raw page as seen by one platform scraper: the raw markup (used for
the plain-substring availability checks) plus the per-pattern regex
outcomes for the scraper's three ordered pattern lists (`none` when a
pattern has no match, `some c` when its first capture is `c`). -/
structure Page where
  html : String
  jsonLd : Option JsonLdParse
  nameMatches : List (Option String)
  priceMatches : List (Option String)
  imageMatches : List (Option String)
  deriving DecidableEq, Repr

/-- The fixed placeholder image URL of the scrapers. -/
def placeholderImage : String :=
  "https://images.unsplash.com/photo-1505740420928-5e560c06d30e?w=500&h=500&fit=crop"

/-- The normalized product record a scraper returns. -/
structure ScrapedProduct where
  name : String
  price : JQ
  imageUrl : Option String
  isAvailable : Bool
  deriving DecidableEq, Repr

/-- The name-pattern loop: first matching pattern wins, its capture
trimmed; `none` when no pattern matched. -/
def firstNameMatch : List (Option String) → Option String
  | [] => none
  | none :: rest => firstNameMatch rest
  | some cap :: _ => some (jsTrim cap)

/-- The price-pattern loop, threading the mutable `price` variable: a
matching pattern's capture has commas stripped and is `parseFloat`ed; a
positive number breaks the loop, anything else resets `price` to `null`
and continues. -/
def priceFallbackRun : List (Option String) → Option JSNum → Option JSNum
  | [], price => price
  | none :: rest, price => priceFallbackRun rest price
  | some cap :: rest, _ =>
      match parseFloatJS (removeChar ',' cap) with
      | .nan => priceFallbackRun rest none
      | .val q =>
          if jqLt ⟨0, 1⟩ q then some (.val q)
          else priceFallbackRun rest none

/-- The image-pattern loop: first pattern whose capture is truthy and not
an inline data URI wins. -/
def firstImageMatch : List (Option String) → Option String
  | [] => none
  | none :: rest => firstImageMatch rest
  | some cap :: rest =>
      if cap ≠ "" && !(strIncludes cap "data:image") then some cap
      else firstImageMatch rest

/-- Name/price/image produced by the JSON-LD strategy, starting from the
given defaults (`if (jsonData.name) ...` etc.; an array image takes its
first element, which is JS `undefined` — modelled `none` — when empty). -/
def jsonLdApply (j : JsonLd) (name₀ : String) (image₀ : Option String) :
    String × Option JSNum × Option String :=
  let name := match j.name with
    | some s => if s ≠ "" then s else name₀
    | none => name₀
  let price := j.offersPrice
  let image := match j.image with
    | none => image₀
    | some (.str s) => if s ≠ "" then some s else image₀
    | some (.arr l) => l.head?
  (name, price, image)

/-- The platform-independent part of a scraper body after the fetch: the
ordered strategy chain for name, price and image, shared verbatim by the
four scrapers (they differ only in their pattern lists — already folded
into the page — their availability logic and their error strings).  The
Flipkart-specific width/height placeholder substitution in its image
capture is elided; image URLs are otherwise passed through verbatim. -/
def extractCore (page : Page) (url : String) : String × Option JSNum × Option String :=
  let name₀ := extractNameFromUrl url
  let image₀ : Option String := some placeholderImage
  let jd : String × Option JSNum × Option String :=
    match page.jsonLd with
    | some (.ok j) => jsonLdApply j name₀ image₀
    | _ => (name₀, none, image₀)
  let name₁ := jd.1
  let price₁ := jd.2.1
  let image₁ := jd.2.2
  let name₂ :=
    if name₁ = "" || name₁ = extractNameFromUrl url then
      (firstNameMatch page.nameMatches).getD name₁
    else name₁
  let price₂ :=
    if jsNumTruthy price₁ then price₁
    else priceFallbackRun page.priceMatches price₁
  let image₂ :=
    if image₁ = some placeholderImage then
      match firstImageMatch page.imageMatches with
      | some s => some s
      | none => image₁
    else image₁
  (name₂, price₂, image₂)

/-- Close an extraction: the final `if (!price) throw` guard. -/
def finishExtract (nm : String) (price : Option JSNum) (im : Option String)
    (avail : Bool) (errMsg : String) : Except String ScrapedProduct :=
  if jsNumTruthy price then
    match price with
    | some (.val q) => .ok ⟨nm, q, im, avail⟩
    | _ => .error errMsg
  else .error errMsg

/-- `scrapeAmazon` after a successful fetch of `page`. -/
def scrapeAmazonCore (page : Page) (url : String) : Except String ScrapedProduct :=
  let r := extractCore page url
  let isAvailable := !(strIncludes page.html "Currently unavailable") &&
    !(strIncludes page.html "Out of stock") &&
    !(strIncludes page.html "Temporarily out of stock")
  finishExtract r.1 r.2.1 r.2.2 isAvailable "Could not extract price from Amazon page"

/-- `scrapeAmazon` including its catch-all rewrap of error messages. -/
def scrapeAmazon (page : Page) (url : String) : Except String ScrapedProduct :=
  match scrapeAmazonCore page url with
  | .ok p => .ok p
  | .error m => .error ("Failed to scrape Amazon: " ++ m)

/-- `scrapeFlipkart` after a successful fetch of `page`. -/
def scrapeFlipkartCore (page : Page) (url : String) : Except String ScrapedProduct :=
  let r := extractCore page url
  let isAvailable := !(strIncludes page.html "Sold Out") &&
    !(strIncludes page.html "Out of Stock") &&
    !(strIncludes page.html "Currently unavailable")
  finishExtract r.1 r.2.1 r.2.2 isAvailable "Could not extract price from Flipkart page"

def scrapeFlipkart (page : Page) (url : String) : Except String ScrapedProduct :=
  match scrapeFlipkartCore page url with
  | .ok p => .ok p
  | .error m => .error ("Failed to scrape Flipkart: " ++ m)

/-- `scrapeMyntra` after a successful fetch: identical strategy chain, but
availability defaults to `true` and is refined only by the JSON-LD
`offers.availability` field. -/
def scrapeMyntraCore (page : Page) (url : String) : Except String ScrapedProduct :=
  let r := extractCore page url
  let isAvailable :=
    match page.jsonLd with
    | some (.ok j) =>
        match j.offersAvailability with
        | some a => a = "http://schema.org/InStock" || a = "InStock"
        | none => true
    | _ => true
  finishExtract r.1 r.2.1 r.2.2 isAvailable "Could not extract price from Myntra page"

def scrapeMyntra (page : Page) (url : String) : Except String ScrapedProduct :=
  match scrapeMyntraCore page url with
  | .ok p => .ok p
  | .error m => .error ("Failed to scrape Myntra: " ++ m)

/-- `scrapeAjio` after a successful fetch of `page`. -/
def scrapeAjioCore (page : Page) (url : String) : Except String ScrapedProduct :=
  let r := extractCore page url
  let isAvailable := !(strIncludes page.html "Out of stock") &&
    !(strIncludes page.html "Currently unavailable") &&
    !(strIncludes page.html "Sold out")
  finishExtract r.1 r.2.1 r.2.2 isAvailable "Could not extract price from Ajio page"

def scrapeAjio (page : Page) (url : String) : Except String ScrapedProduct :=
  match scrapeAjioCore page url with
  | .ok p => .ok p
  | .error m => .error ("Failed to scrape Ajio: " ++ m)

/-- The platform dispatch of the scraper's request handler
(`switch (platform.toLowerCase())` in `scraper/index.ts`): the validated
platform value is lower-cased and matched against the four implemented
scrapers; everything else hits the `Unsupported platform` throw. -/
def scrapeDispatch (platform : Platform) (page : Page) (url : String) :
    Except String ScrapedProduct :=
  let p := jsToLower platform.toStr
  if p = "amazon" then scrapeAmazon page url
  else if p = "flipkart" then scrapeFlipkart page url
  else if p = "myntra" then scrapeMyntra page url
  else if p = "ajio" then scrapeAjio page url
  else .error ("Unsupported platform: " ++ platform.toStr)

/-! ## Database model (tables of part_001's schema, with an insertion
clock standing in for `now()` timestamps and `gen_random_uuid()` ids) -/

structure ProductRow where
  id : Nat
  url : String
  name : String
  platform : String
  latestPrice : JQ
  imageUrl : Option String
  isAvailable : Bool
  updatedAt : Nat
  deriving DecidableEq, Repr

structure SnapshotRow where
  productId : Nat
  price : JQ
  isAvailable : Bool
  snapshotAt : Nat
  deriving DecidableEq, Repr

structure TrackerRow where
  id : Nat
  userId : Nat
  productId : Nat
  targetPrice : Option JQ
  isActive : Bool
  deriving DecidableEq, Repr

structure AlertRow where
  userId : Nat
  trackerId : Nat
  oldPrice : JQ
  newPrice : JQ
  status : String
  deriving DecidableEq, Repr

structure LogRow where
  productId : Nat
  status : String
  errorMessage : Option String
  scrapedAt : Nat
  deriving DecidableEq, Repr

structure ProfileRow where
  userId : Nat
  email : String
  deriving DecidableEq, Repr

structure DB where
  products : List ProductRow
  snapshots : List SnapshotRow
  trackers : List TrackerRow
  alerts : List AlertRow
  scrapeLogs : List LogRow
  profiles : List ProfileRow
  nextId : Nat
  clock : Nat
  deriving DecidableEq, Repr

/-- `insert` into `price_snapshots` with `snapshot_at: now()`. -/
def dbInsertSnapshot (db : DB) (pid : Nat) (price : JQ) (avail : Bool) : DB :=
  { db with
    snapshots := db.snapshots ++ [⟨pid, price, avail, db.clock⟩],
    clock := db.clock + 1 }

/-- `insert` into `scrape_logs`. -/
def dbInsertLog (db : DB) (pid : Nat) (status : String) (msg : Option String) : DB :=
  { db with
    scrapeLogs := db.scrapeLogs ++ [⟨pid, status, msg, db.clock⟩],
    clock := db.clock + 1 }

/-- `insert` into `alerts`. -/
def dbInsertAlert (db : DB) (a : AlertRow) : DB :=
  { db with alerts := db.alerts ++ [a], clock := db.clock + 1 }

/-- `update` of a product row with scraped data (`updated_at: now()`). -/
def dbUpdateProduct (db : DB) (pid : Nat) (pd : ScrapedProduct) : DB :=
  { db with
    products := db.products.map (fun r =>
      if r.id = pid then
        { r with
          name := pd.name
          latestPrice := pd.price
          imageUrl := pd.imageUrl
          isAvailable := pd.isAvailable
          updatedAt := db.clock }
      else r),
    clock := db.clock + 1 }

/-- Descending insertion into a list sorted by `snapshotAt`, modelling the
store's `order('snapshot_at', ascending: false)`. -/
def insertDescSnap (s : SnapshotRow) : List SnapshotRow → List SnapshotRow
  | [] => [s]
  | t :: ts =>
      if t.snapshotAt ≤ s.snapshotAt then s :: t :: ts
      else t :: insertDescSnap s ts

def sortDescSnap : List SnapshotRow → List SnapshotRow
  | [] => []
  | s :: ss => insertDescSnap s (sortDescSnap ss)

/-- `price_snapshots` rows of one product, most recent first, limited to
`n` rows — the check-alerts query
`.eq(product_id).order(snapshot_at, desc).limit(n)`. -/
def querySnapshotsDesc (db : DB) (pid : Nat) (n : Nat) : List SnapshotRow :=
  (sortDescSnap (db.snapshots.filter (fun s => s.productId = pid))).take n

/-! ## Inline alert check (scraper/index.ts, `checkPriceAlerts`) -/

/-- The tracker filter of `checkPriceAlerts`:
`.eq('product_id', productId).eq('is_active', true).not('target_price','is',null)`. -/
def activeTrackersFor (db : DB) (pid : Nat) : List TrackerRow :=
  db.trackers.filter (fun t =>
    t.productId = pid && t.isActive && t.targetPrice.isSome)

/-- One loop iteration of `checkPriceAlerts`: when
`newPrice <= tracker.target_price`, insert a PENDING alert whose
`old_price` is the target price itself. -/
def checkPriceAlertsStep (newPrice : JQ) (db : DB) (t : TrackerRow) : DB :=
  match t.targetPrice with
  | some g =>
      if jqLe newPrice g then
        dbInsertAlert db ⟨t.userId, t.id, g, newPrice, "PENDING"⟩
      else db
  | none => db

/-- `checkPriceAlerts` from `scraper/index.ts`. -/
def checkPriceAlerts (db : DB) (pid : Nat) (newPrice : JQ) : DB :=
  (activeTrackersFor db pid).foldl (checkPriceAlertsStep newPrice) db

/-! ## Per-item scrape pipeline (scraper/index.ts request handler after
validation; `outcome` stands for the fetch + platform dispatch result) -/

/-- Lines 86–141 of `scraper/index.ts`: on a successful scrape, update the
product, append a snapshot, log SUCCESS and run the inline alert check;
on a scrape error, log FAILED with the error message and rethrow (the
handler then answers 500, which the remote caller observes as a rejected
invocation). -/
def scraperServe (db : DB) (pid : Nat) (outcome : Except String ScrapedProduct) :
    DB × Except String Unit :=
  match outcome with
  | .ok pd =>
      let db₁ := dbUpdateProduct db pid pd
      let db₂ := dbInsertSnapshot db₁ pid pd.price pd.isAvailable
      let db₃ := dbInsertLog db₂ pid "SUCCESS" none
      let db₄ := checkPriceAlerts db₃ pid pd.price
      (db₄, .ok ())
  | .error e => (dbInsertLog db pid "FAILED" (some e), .error e)

/-! ## Batch scheduler (update-all-prices/index.ts) -/

/-- `[...new Set(xs)]`: deduplication keeping first occurrences. -/
def dedupFirstAux (seen : List Nat) : List Nat → List Nat
  | [] => []
  | a :: t =>
      if seen.contains a then dedupFirstAux seen t
      else a :: dedupFirstAux (seen ++ [a]) t

def dedupFirst (l : List Nat) : List Nat := dedupFirstAux [] l

/-- One batch: invoke the scraper for every item and collect each settled
outcome in order (`Promise.allSettled`).  Because `functions.invoke`
resolves with a data/error pair even when the scraper answers 500, every
settled result has `status === 'fulfilled'`: the loop's
`result.status === 'fulfilled'` test always takes the `updated++` branch
and the `failed++` branch is unreachable (the resolved value's `error`
field is never inspected by this loop). -/
def runBatch (outcomes : Nat → Except String ScrapedProduct) :
    DB → List ProductRow → DB × Nat × Nat
  | db, [] => (db, 0, 0)
  | db, p :: rest =>
      let r := scraperServe db p.id (outcomes p.id)
      let s := runBatch outcomes r.1 rest
      (s.1, s.2.1 + 1, s.2.2)

/-- Slicing into batches of `batchSize = 5`
(`products.slice(i, i + batchSize)` in the batch loop): the accumulator
holds the current batch in reverse, the counter its remaining room. -/
def chunks5Aux : List ProductRow → Nat → List ProductRow → List (List ProductRow)
  | acc, _, [] => [acc.reverse]
  | acc, Nat.succ k, x :: xs => chunks5Aux (x :: acc) k xs
  | acc, 0, x :: xs => acc.reverse :: chunks5Aux [x] 4 xs

def chunks5 : List ProductRow → List (List ProductRow)
  | [] => []
  | x :: xs => chunks5Aux [x] 4 xs

/-- The batch loop: batches of 5, processed strictly in order, each batch
settled with `runBatch` and the counters summed (the 2-second pacing
delay has no observable effect here). -/
def runBatches (outcomes : Nat → Except String ScrapedProduct)
    (db : DB) (items : List ProductRow) : DB × Nat × Nat :=
  (chunks5 items).foldl
    (fun acc batch =>
      let r := runBatch outcomes acc.1 batch
      (r.1, acc.2.1 + r.2.1, acc.2.2 + r.2.2))
    (db, 0, 0)

/-! ## Scheduled alert evaluation (check-alerts/index.ts) -/

/-- The tracker query of check-alerts: active trackers with a non-null
target price whose user has a profile row (the `profiles!inner` join
keeps only trackers with a matching profile). -/
def alertableTrackers (db : DB) : List TrackerRow :=
  db.trackers.filter (fun t =>
    t.isActive && t.targetPrice.isSome &&
      (db.profiles.any (fun pr => pr.userId = t.userId)))

/-- The `old_price` computed by check-alerts for a qualifying tracker:
the two most recent snapshots are fetched, and index 1 (the second most
recent) is used when it exists, else the target price. -/
def checkAlertsOldPrice (db : DB) (pid : Nat) (target : JQ) : JQ :=
  let previousSnapshot := querySnapshotsDesc db pid 2
  if 1 < previousSnapshot.length then
    ((previousSnapshot[1]?).map (·.price)).getD target
  else target

/-- The alert row check-alerts inserts for a qualifying tracker `t` on
product `prod` (note the `SENT` status). -/
def checkAlertsRow (db : DB) (t : TrackerRow) (prod : ProductRow) (g : JQ) : AlertRow :=
  ⟨t.userId, t.id, checkAlertsOldPrice db prod.id g, prod.latestPrice, "SENT"⟩

/-- One loop iteration of check-alerts over `(db, alertsSent, errors)`:
a missing joined product makes the guarded body throw (caught, counted
as an error); otherwise an alert is inserted and the notification mail
sent exactly when `latest_price <= target_price`.  The notification sink
(`send-email`) is modelled as always succeeding. -/
def checkAlertsStep (acc : DB × Nat × Nat) (t : TrackerRow) : DB × Nat × Nat :=
  let db := acc.1
  match db.products.find? (fun p => p.id = t.productId), t.targetPrice with
  | some prod, some g =>
      if jqLe prod.latestPrice g then
        (dbInsertAlert db (checkAlertsRow db t prod g), acc.2.1 + 1, acc.2.2)
      else acc
  | some _, none => acc
  | none, _ => (db, acc.2.1, acc.2.2 + 1)

/-- The check-alerts request handler: fold the guarded per-tracker body
over the queried trackers, returning the final state with the
`alertsSent` and `errors` counters. -/
def checkAlerts (db : DB) : DB × Nat × Nat :=
  (alertableTrackers db).foldl checkAlertsStep (db, 0, 0)

/-! ## Full batch pass (update-all-prices/index.ts) -/

/-- The products targeted by one batch pass: the deduplicated
`product_id`s of active trackers, resolved against the products table. -/
def trackedProducts (db : DB) : List ProductRow :=
  let productIds := dedupFirst ((db.trackers.filter (·.isActive)).map (·.productId))
  db.products.filter (fun p => productIds.contains p.id)

/-- The update-all-prices request handler: run the batch loop over all
tracked products, then invoke check-alerts once, and report
`{updated, failed, total}`.  `outcomes` abstracts each product's fetch
and platform dispatch result. -/
def updateAllPrices (db : DB) (outcomes : Nat → Except String ScrapedProduct) :
    DB × Nat × Nat × Nat :=
  let ps := trackedProducts db
  let r := runBatches outcomes db ps
  let c := checkAlerts r.1
  (c.1, r.2.1, r.2.2, ps.length)

/-! ## Product resolution on tracker creation (trackers function,
`src/unnamed/part_002` lines 127–180) -/

/-- The spec's `getOrCreateProductByUrl`: look the URL up in `products`
(`.eq('url', productUrl).single()`); when absent, insert the placeholder
row (`name: 'Product loading...'`, `latest_price: 0`) with a fresh id and
report `created = true`.  The background scrape the source then triggers
touches only non-key columns and is elided here. -/
def getOrCreateProductByUrl (db : DB) (url : String) (platform : String) :
    DB × Nat × Bool :=
  match db.products.find? (fun p => p.url = url) with
  | some existingProduct => (db, existingProduct.id, false)
  | none =>
      let pid := db.nextId
      ({ db with
         products := db.products ++
           [⟨pid, url, "Product loading...", platform, ⟨0, 1⟩, none, true, db.clock⟩]
         nextId := db.nextId + 1
         clock := db.clock + 1 }, pid, true)

/-! ## Product detail statistics (products/index.ts) -/

/-- `Math.min(...prices)` over a non-empty list (JS folds pairwise). -/
def jqMinList : List JQ → JQ
  | [] => ⟨0, 1⟩
  | h :: t => t.foldl (fun a b => if jqLe a b then a else b) h

/-- `Math.max(...prices)` over a non-empty list. -/
def jqMaxList : List JQ → JQ
  | [] => ⟨0, 1⟩
  | h :: t => t.foldl (fun a b => if jqLe a b then b else a) h

structure Statistics where
  lowestPrice : JQ
  highestPrice : JQ
  avgPrice : JQ
  deriving DecidableEq, Repr

/-- The statistics block of the product detail response (lines 79–95 of
`products/index.ts`): over the 30-day price history `prices`, or the
product's `latest_price` when the history is empty; the average is
rounded as `Math.round(avgPrice * 100) / 100`. -/
def productStatistics (prices : List JQ) (latestPrice : JQ) : Statistics :=
  let lowestPrice := if 0 < prices.length then jqMinList prices else latestPrice
  let highestPrice := if 0 < prices.length then jqMaxList prices else latestPrice
  let avgPrice :=
    if 0 < prices.length then
      jqDivNat (prices.foldl jqAdd ⟨0, 1⟩) prices.length
    else latestPrice
  ⟨lowestPrice, highestPrice, ⟨jqRound (jqMulNat avgPrice 100), 100⟩⟩

/-! ## Shared concrete fixtures -/

/-- A page with no JSON-LD block and no pattern match at all. -/
def emptyPage : Page := ⟨"", none, [], [], []⟩

/-- A page whose JSON-LD block carries a *negative* `offers.price` and
which offers nothing else. -/
def negPricePage : Page :=
  { html := ""
    jsonLd := some (.ok ⟨none, some (.val ⟨-5, 1⟩), none, none⟩)
    nameMatches := []
    priceMatches := []
    imageMatches := [] }

/-- A page whose JSON-LD block carries price `19999` while a pattern
fallback would find `24999` elsewhere in the markup. -/
def jsonLdPage : Page :=
  { html := ""
    jsonLd := some (.ok ⟨some "Widget Pro", some (.val ⟨19999, 1⟩), none, none⟩)
    nameMatches := []
    priceMatches := [some "24,999"]
    imageMatches := [] }

/-- A page lacking a price in any form (a JSON-LD block without an offer,
and a price pattern whose capture is not numeric). -/
def noPricePage : Page :=
  { html := ""
    jsonLd := some (.ok ⟨some "Widget", none, none, none⟩)
    nameMatches := []
    priceMatches := [none, some ","]
    imageMatches := [] }

/-! ## Claim C6 — platform resolution -/

/-- **C6, counterexample.**  The claim says `resolvePlatform` matches
domain fragments against the *hostname* and that first match wins; but
`extractPlatform` matches against the whole URL string, so a URL whose
hostname (`evil.com`) contains no known fragment still resolves to
`Amazon` because the fragment occurs in its query string.  (It also
shows no `InvalidUrl` failure mode exists: the function is total.) -/
theorem claim_C6_counterexample :
    extractPlatform "https://evil.com/shop?ref=amazon.deals" = some Platform.Amazon ∧
    urlHostname "https://evil.com/shop?ref=amazon.deals" = some "evil.com" ∧
    platformTable.all (fun fp => !(strIncludes (jsToLower "evil.com") fp.1)) = true := by
  decide

/-- **C6, amended.**  `extractPlatform` is a pure function over the URL
string performing case-insensitive substring matching of the fixed
fragment table (`amazon.`, `flipkart.`, `myntra.`, `ajio.`, `snapdeal.`)
against the *entire URL* (not just its hostname), first match winning;
a URL containing none of the fragments anywhere yields `none`
(Unsupported), and malformed URLs are not rejected (there is no
`InvalidUrl` outcome).  Formally: it coincides with first-match lookup
in the spec's fragment table over the whole lower-cased URL. -/
theorem claim_C6 (url : String) : extractPlatform url = resolvePlatformSpec url := by
  cases h₁ : strIncludes (jsToLower url) "amazon." <;>
  cases h₂ : strIncludes (jsToLower url) "flipkart." <;>
  cases h₃ : strIncludes (jsToLower url) "myntra." <;>
  cases h₄ : strIncludes (jsToLower url) "ajio." <;>
  cases h₅ : strIncludes (jsToLower url) "snapdeal." <;>
    simp [extractPlatform, resolvePlatformSpec, platformTable, h₁, h₂, h₃, h₄, h₅]

/-! ## Claim C8 — platform dispatch -/

/-- **C8, counterexample.**  `Snapdeal` is in the validated platform enum,
yet the scraper's dispatch switch has no `snapdeal` case: a validated
Snapdeal request reaches the `Unsupported platform` branch. -/
theorem claim_C8_counterexample :
    scrapeDispatch Platform.Snapdeal emptyPage "https://www.snapdeal.com/product/x" =
      Except.error "Unsupported platform: Snapdeal" := by
  decide

/-- **C8, amended.**  For the four platforms Amazon, Flipkart, Myntra and
Ajio, a validated scrape request dispatches to the platform-specific
extraction routine (returning a `ScrapedProduct` or an extraction
error); for the fifth enum value, Snapdeal, the dispatch's `Unsupported
platform` branch is reached even though the request schema accepts it. -/
theorem claim_C8 (page : Page) (url : String) :
    scrapeDispatch Platform.Amazon page url = scrapeAmazon page url ∧
    scrapeDispatch Platform.Flipkart page url = scrapeFlipkart page url ∧
    scrapeDispatch Platform.Myntra page url = scrapeMyntra page url ∧
    scrapeDispatch Platform.Ajio page url = scrapeAjio page url ∧
    scrapeDispatch Platform.Snapdeal page url =
      Except.error "Unsupported platform: Snapdeal" :=
  ⟨rfl, rfl, rfl, rfl, rfl⟩

/-! ## Claim C9 — URL-derived name fallback -/

/-- **C9, counterexample.**  The source only steps back a single segment
when the last one is empty, so a URL ending in `//` yields the empty
name, not the slugified last non-empty path segment (`"B"` here). -/
theorem claim_C9_counterexample :
    extractNameFromUrl "https://x.com/b//" = "" ∧
    specNameFromUrl "https://x.com/b//" = "B" ∧
    ("" : String) ≠ "B" := by
  decide

/-- The segment selection of `extractNameFromUrl` agrees with "the last
non-empty segment" whenever it selects a non-empty segment, i.e. except
when the URL ends in two separators. -/
theorem lastUrlPart_eq_lastNonempty (url : String) (h : lastUrlPart url ≠ "") :
    lastUrlPart url =
      ((((splitOnChar '/' url.toList).map String.mk).reverse.find? (· ≠ "")).getD "") := by
  unfold lastUrlPart at h ⊢
  generalize hp : (splitOnChar '/' url.toList).map String.mk = parts at h ⊢
  have hrr : parts.reverse.reverse = parts := List.reverse_reverse parts
  generalize hr : parts.reverse = r at hrr ⊢
  subst hrr
  match r with
  | [] => simp at h
  | [a] =>
      by_cases ha : a = ""
      · subst ha; simp at h
      · simp [ha]
  | a :: b :: t =>
      have hlast : (t.reverse ++ [b, a]).getLastD "" = a := by
        have : [b, a] = [b] ++ [a] := rfl
        rw [this, ← List.append_assoc]
        exact List.getLastD_concat _ _ _
      have heq : (a :: b :: t).reverse = t.reverse ++ [b, a] := by simp
      rw [heq] at h ⊢
      by_cases ha : a = ""
      · have hlen : 2 ≤ (t.reverse ++ [b, a]).length := by
          simp only [List.length_append, List.length_reverse, List.length_cons,
            List.length_nil]
          omega
        have hidx : (t.reverse ++ [b, a])[(t.reverse ++ [b, a]).length - 2]? = some b := by
          have hlen' : (t.reverse ++ [b, a]).length = t.length + 2 := by simp
          rw [hlen']
          have : t.length + 2 - 2 = t.length := by omega
          rw [this]
          rw [List.getElem?_append_right (by simp)]
          simp
        subst ha
        simp only [hlast] at h ⊢
        simp only [ne_eq, not_true_eq_false, if_false, ite_false] at h ⊢
        rw [if_pos hlen] at h ⊢
        rw [hidx] at h ⊢
        simp only [Option.getD_some] at h ⊢
        have hb : b ≠ "" := h
        simp [hb]
      · simp [hlast, ha]

/-- **C9, amended.**  The URL-derived name fallback slugifies the last
`/`-segment of the URL, falling back one (and only one) segment when the
last is empty: query/fragment suffix stripped, `-`/`_` replaced with
spaces, word-initial characters upper-cased, truncated to 100
characters.  Whenever the selected segment is non-empty — i.e. unless
the URL ends in two separators — it coincides with the spec's "last
non-empty path segment" reading, and the result length never exceeds
100. -/
theorem claim_C9 (url : String) :
    (extractNameFromUrl url).length ≤ 100 ∧
    (lastUrlPart url ≠ "" → extractNameFromUrl url = specNameFromUrl url) := by
  constructor
  · show (jsTake _ 100).length ≤ 100
    unfold jsTake
    show (List.take 100 _).length ≤ 100
    rw [List.length_take]
    exact Nat.min_le_left _ _
  · intro h
    unfold extractNameFromUrl specNameFromUrl
    rw [lastUrlPart_eq_lastNonempty url h]

/-- **C9, witness.** -/
theorem claim_C9_witness :
    lastUrlPart "https://www.amazon.in/cool-widget-2?ref=x" ≠ "" ∧
    (extractNameFromUrl "https://www.amazon.in/cool-widget-2?ref=x").length ≤ 100 ∧
    extractNameFromUrl "https://www.amazon.in/cool-widget-2?ref=x" =
      specNameFromUrl "https://www.amazon.in/cool-widget-2?ref=x" :=
  ⟨by decide,
   (claim_C9 "https://www.amazon.in/cool-widget-2?ref=x").1,
   (claim_C9 "https://www.amazon.in/cool-widget-2?ref=x").2 (by decide)⟩

/-! ## Claim C7 — product resolution is idempotent on the URL key -/

/-- **C7.**  `getOrCreateProductByUrl` is idempotent on the URL key:
called twice with the same URL it returns the same `productId` both
times, the second call reports `created = false`, and no second product
row for that URL is ever created — afterwards the number of rows with
that URL is the initial count or one, whichever is larger. -/
theorem claim_C7 (db : DB) (url platform platform' : String) :
    ((getOrCreateProductByUrl (getOrCreateProductByUrl db url platform).1
        url platform').2.1 =
      (getOrCreateProductByUrl db url platform).2.1) ∧
    ((getOrCreateProductByUrl (getOrCreateProductByUrl db url platform).1
        url platform').2.2 = false) ∧
    ((getOrCreateProductByUrl (getOrCreateProductByUrl db url platform).1
        url platform').1.products.countP (fun p => p.url = url) =
      max (db.products.countP (fun p => p.url = url)) 1) := by
  cases hfind : db.products.find? (fun p => p.url = url) with
  | some p =>
      have hmem := List.mem_of_find?_eq_some hfind
      have hp := List.find?_some hfind
      have hcount : 0 < db.products.countP (fun p => p.url = url) :=
        List.countP_pos_iff.mpr ⟨p, hmem, hp⟩
      simp only [getOrCreateProductByUrl, hfind]
      refine ⟨trivial, trivial, ?_⟩
      omega
  | none =>
      have hnone := List.find?_eq_none.mp hfind
      have hcount : db.products.countP (fun p => p.url = url) = 0 :=
        List.countP_eq_zero.mpr hnone
      have hfind₂ :
          (db.products ++
            [(⟨db.nextId, url, "Product loading...", platform, ⟨0, 1⟩, none, true,
              db.clock⟩ : ProductRow)]).find? (fun p => p.url = url) =
          some (⟨db.nextId, url, "Product loading...", platform, ⟨0, 1⟩, none, true,
            db.clock⟩ : ProductRow) := by
        rw [List.find?_append, hfind]
        simp
      simp only [getOrCreateProductByUrl, hfind, hfind₂]
      refine ⟨trivial, trivial, ?_⟩
      rw [List.countP_append, hcount]
      simp

/-! ## Claims C5 and C1 — the extraction strategy chain -/

/-- The price produced by the structured-data strategy alone. -/
def jsonLdPrice (page : Page) : Option JSNum :=
  match page.jsonLd with
  | some (.ok j) => j.offersPrice
  | _ => none

/-- A successful `finishExtract` never carries a zero price. -/
theorem finishExtract_ok {nm : String} {pr : Option JSNum} {im : Option String}
    {av : Bool} {e : String} {p : ScrapedProduct}
    (h : finishExtract nm pr im av e = .ok p) : p.price.num ≠ 0 := by
  unfold finishExtract at h
  by_cases ht : jsNumTruthy pr = true
  · rw [if_pos ht] at h
    match pr, ht with
    | some (.val q), ht =>
        simp only [Except.ok.injEq] at h
        subst h
        simpa [jsNumTruthy] using ht
  · rw [if_neg ht] at h
    cases h

/-- A `finishExtract` over a falsy price is the given error. -/
theorem finishExtract_err {nm : String} {pr : Option JSNum} {im : Option String}
    {av : Bool} {e : String} (h : jsNumTruthy pr = false) :
    finishExtract nm pr im av e = .error e := by
  unfold finishExtract
  rw [if_neg (by simp [h])]

/-- The price threaded through `extractCore` is the structured-data price
when that is truthy, else the result of the pattern fallback run. -/
theorem extractCore_price (page : Page) (url : String) :
    (extractCore page url).2.1 =
      (if jsNumTruthy (jsonLdPrice page) then jsonLdPrice page
       else priceFallbackRun page.priceMatches (jsonLdPrice page)) := by
  rcases page with ⟨html, jl, nms, pms, ims⟩
  rcases jl with _ | jp
  · simp [extractCore, jsonLdPrice]
  · rcases jp with _ | j
    · simp [extractCore, jsonLdPrice]
    · simp [extractCore, jsonLdPrice, jsonLdApply]

/-- The wrapper around a scraper core preserves success verbatim. -/
theorem wrapCore_ok {r : Except String ScrapedProduct} {pre : String}
    {p : ScrapedProduct}
    (h : (match r with
          | .ok q => Except.ok q
          | .error m => Except.error (pre ++ m)) = .ok p) : r = .ok p := by
  cases r with
  | ok q => simpa using h
  | error m => cases h

/-- **C5.**  When the page carries a structured product descriptor whose
`offers.price` parses to a positive number `q`, `scrapeAmazon` succeeds
and returns exactly that price — regardless of what the pattern
fallbacks would find (`page.priceMatches` is arbitrary here). -/
theorem claim_C5 (page : Page) (url : String) (j : JsonLd) (q : JQ)
    (hjl : page.jsonLd = some (.ok j)) (hop : j.offersPrice = some (.val q))
    (hq : 0 < q.num) :
    ∃ nm im avail, scrapeAmazon page url = .ok ⟨nm, q, im, avail⟩ := by
  have hne : q.num ≠ 0 := by omega
  simp only [scrapeAmazon, scrapeAmazonCore, extractCore, jsonLdApply,
    finishExtract, hjl, hop, jsNumTruthy]
  simp [jsNumTruthy, hne]

/-- **C5, witness**: on a page whose descriptor says 19999 while a
fallback pattern would capture 24,999, the extractor returns 19999. -/
theorem claim_C5_witness :
    ∃ nm im avail,
      scrapeAmazon jsonLdPage "https://www.amazon.in/widget-pro" =
        .ok ⟨nm, ⟨19999, 1⟩, im, avail⟩ :=
  claim_C5 jsonLdPage "https://www.amazon.in/widget-pro" _ _ rfl rfl (by decide)

/-- **C1, counterexample.**  On a page whose structured descriptor carries
`offers.price = -5` and which matches no fallback pattern, no strategy
yields a valid *positive* price, yet `scrapeAmazon` does not fail: it
returns a product with the non-positive price `-5` (the source's final
guard `if (!price)` only catches `null`, `0` and `NaN`, and the
positivity check guards the pattern fallbacks only). -/
theorem claim_C1_counterexample :
    scrapeAmazon negPricePage "https://www.amazon.in/widget" =
      .ok ⟨"Widget", ⟨-5, 1⟩, some placeholderImage, true⟩ ∧
    ((-5 : Int) < 0) := by
  decide

/-- **C1, amended.**  Successful extraction never returns a price of `0`,
`null` or `NaN` — when the structured strategy yields no truthy price
and the pattern fallback chain yields nothing, both `scrapeAmazon` and
`scrapeFlipkart` fail with their price-not-found error — but a *negative*
price delivered by the structured descriptor is returned as-is (see the
counterexample), so "non-positive" cannot be strengthened beyond
"zero". -/
theorem claim_C1 (page : Page) (url : String) :
    (∀ p, scrapeAmazon page url = .ok p → p.price.num ≠ 0) ∧
    (∀ p, scrapeFlipkart page url = .ok p → p.price.num ≠ 0) ∧
    (jsNumTruthy (jsonLdPrice page) = false →
      jsNumTruthy (priceFallbackRun page.priceMatches (jsonLdPrice page)) = false →
      scrapeAmazon page url =
          .error "Failed to scrape Amazon: Could not extract price from Amazon page" ∧
        scrapeFlipkart page url =
          .error "Failed to scrape Flipkart: Could not extract price from Flipkart page") := by
  have hprice :
      (extractCore page url).2.1 =
        (if jsNumTruthy (jsonLdPrice page) then jsonLdPrice page
         else priceFallbackRun page.priceMatches (jsonLdPrice page)) :=
    extractCore_price page url
  refine ⟨?_, ?_, ?_⟩
  · intro p h
    unfold scrapeAmazon at h
    have hcore := wrapCore_ok h
    simp only [scrapeAmazonCore] at hcore
    exact finishExtract_ok hcore
  · intro p h
    unfold scrapeFlipkart at h
    have hcore := wrapCore_ok h
    simp only [scrapeFlipkartCore] at hcore
    exact finishExtract_ok hcore
  · intro hjson hfb
    have hfalsy : jsNumTruthy (extractCore page url).2.1 = false := by
      rw [hprice, if_neg (by simp [hjson])]
      exact hfb
    constructor
    · unfold scrapeAmazon scrapeAmazonCore
      rw [finishExtract_err hfalsy]
      rfl
    · unfold scrapeFlipkart scrapeFlipkartCore
      rw [finishExtract_err hfalsy]
      rfl

/-- **C1, witness**: a page with a descriptor lacking an offer and whose
only matching price pattern captures a non-numeric string fails on both
scrapers, and a successful scrape carries a nonzero price. -/
theorem claim_C1_witness :
    (scrapeAmazon noPricePage "https://www.amazon.in/widget" =
      .error "Failed to scrape Amazon: Could not extract price from Amazon page") ∧
    (scrapeFlipkart noPricePage "https://www.amazon.in/widget" =
      .error "Failed to scrape Flipkart: Could not extract price from Flipkart page") ∧
    (⟨"Widget", ⟨-5, 1⟩, some placeholderImage, true⟩ : ScrapedProduct).price.num ≠ 0 :=
  ⟨((claim_C1 noPricePage "https://www.amazon.in/widget").2.2 (by decide) (by decide)).1,
   ((claim_C1 noPricePage "https://www.amazon.in/widget").2.2 (by decide) (by decide)).2,
   (claim_C1 negPricePage "https://www.amazon.in/widget").1 _ (by decide)⟩

/-! ## Characterizing the two alert-emitting paths (claims C3, C4) -/

/-- Does tracker `t` trigger the inline alert check at `newPrice`? -/
def pendingQualifies (newPrice : JQ) (t : TrackerRow) : Bool :=
  match t.targetPrice with
  | some g => jqLe newPrice g
  | none => false

/-- The alert row the inline check inserts for tracker `t` (the
`old_price` is the target price itself). -/
def pendingRowFor (newPrice : JQ) (t : TrackerRow) : AlertRow :=
  ⟨t.userId, t.id, t.targetPrice.getD ⟨0, 1⟩, newPrice, "PENDING"⟩

theorem checkPriceAlertsStep_alerts (np : JQ) (db : DB) (t : TrackerRow) :
    (checkPriceAlertsStep np db t).alerts =
      db.alerts ++ (if pendingQualifies np t then [pendingRowFor np t] else []) := by
  unfold checkPriceAlertsStep pendingQualifies pendingRowFor
  cases t.targetPrice with
  | none => simp
  | some g =>
      by_cases h : jqLe np g = true
      · simp [h, dbInsertAlert]
      · simp [Bool.of_not_eq_true h]

theorem checkPriceAlertsStep_stable (np : JQ) (db : DB) (t : TrackerRow) :
    (checkPriceAlertsStep np db t).products = db.products ∧
    (checkPriceAlertsStep np db t).snapshots = db.snapshots ∧
    (checkPriceAlertsStep np db t).trackers = db.trackers ∧
    (checkPriceAlertsStep np db t).scrapeLogs = db.scrapeLogs := by
  unfold checkPriceAlertsStep
  cases t.targetPrice with
  | none => exact ⟨rfl, rfl, rfl, rfl⟩
  | some g =>
      by_cases h : jqLe np g = true
      · simp only [h, if_true]
        exact ⟨rfl, rfl, rfl, rfl⟩
      · simp only [Bool.of_not_eq_true h, if_false]
        exact ⟨rfl, rfl, rfl, rfl⟩

theorem checkPriceAlerts_fold (np : JQ) (l : List TrackerRow) (db : DB) :
    (l.foldl (checkPriceAlertsStep np) db).alerts =
      db.alerts ++ (l.filter (pendingQualifies np)).map (pendingRowFor np) := by
  induction l generalizing db with
  | nil => simp
  | cons t l ih =>
      rw [List.foldl_cons, ih, checkPriceAlertsStep_alerts]
      by_cases h : pendingQualifies np t = true
      · simp [h, List.filter_cons]
      · simp [h, List.filter_cons, Bool.of_not_eq_true h]

theorem checkPriceAlerts_fold_logs (np : JQ) (l : List TrackerRow) (db : DB) :
    (l.foldl (checkPriceAlertsStep np) db).scrapeLogs = db.scrapeLogs := by
  induction l generalizing db with
  | nil => rfl
  | cons t l ih => rw [List.foldl_cons, ih, (checkPriceAlertsStep_stable np db t).2.2.2]

/-- The inline alert check appends exactly the PENDING rows of the
qualifying active trackers of the product, in order. -/
theorem checkPriceAlerts_alerts (db : DB) (pid : Nat) (np : JQ) :
    (checkPriceAlerts db pid np).alerts =
      db.alerts ++
        ((activeTrackersFor db pid).filter (pendingQualifies np)).map
          (pendingRowFor np) :=
  checkPriceAlerts_fold np (activeTrackersFor db pid) db

/-- Does tracker `t` trigger the scheduled check-alerts pass? -/
def checkAlertsQualifies (db : DB) (t : TrackerRow) : Bool :=
  match db.products.find? (fun p => p.id = t.productId), t.targetPrice with
  | some prod, some g => jqLe prod.latestPrice g
  | _, _ => false

/-- The alert row check-alerts inserts for tracker `t` (filler values in
the non-qualifying cases, where no row is inserted). -/
def checkAlertsRowFor (db : DB) (t : TrackerRow) : AlertRow :=
  match db.products.find? (fun p => p.id = t.productId), t.targetPrice with
  | some prod, some g => checkAlertsRow db t prod g
  | _, _ => ⟨t.userId, t.id, ⟨0, 1⟩, ⟨0, 1⟩, "SENT"⟩

theorem checkAlertsQualifies_congr {db db₀ : DB} (h : db.products = db₀.products)
    (t : TrackerRow) : checkAlertsQualifies db t = checkAlertsQualifies db₀ t := by
  unfold checkAlertsQualifies
  rw [h]

theorem checkAlertsRowFor_congr {db db₀ : DB} (hp : db.products = db₀.products)
    (hs : db.snapshots = db₀.snapshots) (t : TrackerRow) :
    checkAlertsRowFor db t = checkAlertsRowFor db₀ t := by
  unfold checkAlertsRowFor checkAlertsRow checkAlertsOldPrice querySnapshotsDesc
  rw [hp, hs]

theorem checkAlertsStep_eq (acc : DB × Nat × Nat) (t : TrackerRow) :
    checkAlertsStep acc t =
      (if checkAlertsQualifies acc.1 t then
        (dbInsertAlert acc.1 (checkAlertsRowFor acc.1 t), acc.2.1 + 1, acc.2.2)
      else if (acc.1.products.find? (fun p => p.id = t.productId)).isNone then
        (acc.1, acc.2.1, acc.2.2 + 1)
      else acc) := by
  unfold checkAlertsStep checkAlertsQualifies checkAlertsRowFor
  cases hfind : acc.1.products.find? (fun p => p.id = t.productId) with
  | none => cases htp : t.targetPrice <;> simp [hfind]
  | some prod =>
      cases htp : t.targetPrice with
      | none => simp [hfind]
      | some g =>
          by_cases hle : jqLe prod.latestPrice g = true
          · simp [hfind, hle]
          · simp [hfind, Bool.of_not_eq_true hle]

theorem checkAlerts_fold (l : List TrackerRow) (db₀ : DB) :
    ∀ (db : DB) (s e : Nat), db.products = db₀.products →
      db.snapshots = db₀.snapshots →
      (l.foldl checkAlertsStep (db, s, e)).1.alerts =
        db.alerts ++
          (l.filter (checkAlertsQualifies db₀)).map (checkAlertsRowFor db₀) := by
  induction l with
  | nil => intro db s e _ _; simp
  | cons t l ih =>
      intro db s e hp hs
      rw [List.foldl_cons, checkAlertsStep_eq]
      have hq₀ : checkAlertsQualifies (db, s, e).1 t = checkAlertsQualifies db₀ t :=
        checkAlertsQualifies_congr hp t
      by_cases hq : checkAlertsQualifies db₀ t = true
      · rw [if_pos (by rw [hq₀]; exact hq)]
        rw [ih (dbInsertAlert db (checkAlertsRowFor db t)) (s + 1) e hp hs]
        rw [checkAlertsRowFor_congr hp hs]
        simp [dbInsertAlert, List.filter_cons, hq]
      · rw [if_neg (by rw [hq₀]; exact hq)]
        have hfoldgoal :
            ∀ (e' : Nat),
              (l.foldl checkAlertsStep (db, s, e')).1.alerts =
                db.alerts ++
                  (l.filter (checkAlertsQualifies db₀)).map (checkAlertsRowFor db₀) :=
          fun e' => ih db s e' hp hs
        by_cases hnone :
            ((db, s, e).1.products.find? (fun p => p.id = t.productId)).isNone = true
        · rw [if_pos hnone]
          have hred : ((db, s, e).1, (db, s, e).2.1, (db, s, e).2.2 + 1) =
              (db, s, e + 1) := rfl
          rw [hred, hfoldgoal]
          simp [List.filter_cons, Bool.of_not_eq_true hq]
        · rw [if_neg hnone, hfoldgoal]
          simp [List.filter_cons, Bool.of_not_eq_true hq]

/-- The scheduled pass appends exactly the SENT rows of the qualifying
queried trackers, in order. -/
theorem checkAlerts_alerts (db : DB) :
    (checkAlerts db).1.alerts =
      db.alerts ++
        ((alertableTrackers db).filter (checkAlertsQualifies db)).map
          (checkAlertsRowFor db) :=
  checkAlerts_fold (alertableTrackers db) db db 0 0 rfl rfl

/-- Counting alert rows per tracker id: when tracker ids are distinct,
mapping a row constructor that preserves the id over a filtered tracker
list yields exactly one row for a kept tracker and none otherwise. -/
theorem countP_alert_rows (q : TrackerRow → Bool) (row : TrackerRow → AlertRow)
    (hrow : ∀ x, (row x).trackerId = x.id) :
    ∀ (l : List TrackerRow) (t : TrackerRow),
      (l.map (fun x => x.id)).Nodup → t ∈ l →
      ((l.filter q).map row).countP (fun a => a.trackerId = t.id) =
        if q t then 1 else 0 := by
  intro l
  induction l with
  | nil => intro t _ ht; cases ht
  | cons a l ih =>
      intro t hn ht
      rw [List.map_cons, List.nodup_cons] at hn
      obtain ⟨hna, hnl⟩ := hn
      rcases List.mem_cons.mp ht with rfl | htl
      · have hzero :
            ((l.filter q).map row).countP (fun x => x.trackerId = t.id) = 0 := by
          rw [List.countP_eq_zero]
          intro x hx
          obtain ⟨y, hy, rfl⟩ := List.mem_map.mp hx
          have hyl : y ∈ l := List.mem_of_mem_filter hy
          have : y.id ≠ t.id := by
            intro he
            exact hna (he ▸ List.mem_map_of_mem (fun x => x.id) hyl)
          simp [hrow, this]
        rw [List.filter_cons]
        by_cases hq : q t = true
        · simp [hq, hzero, hrow, List.countP_cons]
        · simp [Bool.of_not_eq_true hq, hzero]
      · have hne : a.id ≠ t.id := by
          intro he
          exact hna (he ▸ List.mem_map_of_mem (fun x => x.id) htl)
        rw [List.filter_cons]
        by_cases hq : q a = true
        · simp only [hq, if_true, List.map_cons, List.countP_cons]
          rw [ih t hnl htl]
          simp [hrow, hne]
        · simp only [Bool.of_not_eq_true hq, Bool.false_eq_true, if_false]
          exact ih t hnl htl

/-- Every row the scheduled pass constructs has status `SENT`. -/
theorem checkAlertsRowFor_status (db : DB) (t : TrackerRow) :
    (checkAlertsRowFor db t).status = "SENT" := by
  unfold checkAlertsRowFor checkAlertsRow
  cases db.products.find? (fun p => p.id = t.productId) <;>
    cases t.targetPrice <;> rfl

theorem checkAlertsRowFor_trackerId (db : DB) (t : TrackerRow) :
    (checkAlertsRowFor db t).trackerId = t.id := by
  unfold checkAlertsRowFor checkAlertsRow
  cases db.products.find? (fun p => p.id = t.productId) <;>
    cases t.targetPrice <;> rfl

/-! ## Claim C3 — alert trigger condition and status -/

/-- A database with one product at price 90, two snapshots (150 then 90),
one active tracker targeting 100, and the owner's profile. -/
def alertDb : DB :=
  { products := [⟨1, "https://www.amazon.in/w", "P1", "Amazon", ⟨90, 1⟩, none, true, 0⟩]
    snapshots := [⟨1, ⟨150, 1⟩, true, 1⟩, ⟨1, ⟨90, 1⟩, true, 2⟩]
    trackers := [⟨1, 7, 1, some ⟨100, 1⟩, true⟩]
    alerts := []
    scrapeLogs := []
    profiles := [⟨7, "user@example.com"⟩]
    nextId := 2
    clock := 3 }

/-- **C3, counterexample.**  A qualifying tracker (90 ≤ 100) makes the
scheduled evaluation pass insert its alert row with status `SENT`, not
the claimed `Pending`. -/
theorem claim_C3_counterexample :
    (checkAlerts alertDb).1.alerts = [⟨7, 1, ⟨150, 1⟩, ⟨90, 1⟩, "SENT"⟩] ∧
    ("SENT" : String) ≠ "PENDING" := by
  decide

/-- **C3, amended.**  On each evaluation pass, for every queried tracker
(active, non-null target, user profile present) an alert row is emitted
iff the product's `latestPrice` is at most the tracker's `targetPrice`
(a tracker with a missing product row emits nothing), exactly one row
per qualifying tracker per invocation when tracker ids are distinct —
but the row is created with status `Pending` only on the scraper's
inline path; the scheduled check-alerts pass creates it with status
`Sent`. -/
theorem claim_C3 (db : DB) (pid : Nat) (np : JQ)
    (hn : (db.trackers.map (fun t => t.id)).Nodup) :
    ((checkAlerts db).1.alerts =
      db.alerts ++
        ((alertableTrackers db).filter (checkAlertsQualifies db)).map
          (checkAlertsRowFor db)) ∧
    (∀ a ∈ ((alertableTrackers db).filter (checkAlertsQualifies db)).map
        (checkAlertsRowFor db), a.status = "SENT") ∧
    (∀ t ∈ alertableTrackers db,
      (((alertableTrackers db).filter (checkAlertsQualifies db)).map
          (checkAlertsRowFor db)).countP (fun a => a.trackerId = t.id) =
        if checkAlertsQualifies db t then 1 else 0) ∧
    ((checkPriceAlerts db pid np).alerts =
      db.alerts ++
        ((activeTrackersFor db pid).filter (pendingQualifies np)).map
          (pendingRowFor np)) ∧
    (∀ a ∈ ((activeTrackersFor db pid).filter (pendingQualifies np)).map
        (pendingRowFor np), a.status = "PENDING") ∧
    (∀ t ∈ activeTrackersFor db pid,
      (((activeTrackersFor db pid).filter (pendingQualifies np)).map
          (pendingRowFor np)).countP (fun a => a.trackerId = t.id) =
        if pendingQualifies np t then 1 else 0) := by
  have hnAlertable : ((alertableTrackers db).map (fun t => t.id)).Nodup := by
    have hsub : List.Sublist ((alertableTrackers db).map (fun t => t.id))
        (db.trackers.map (fun t => t.id)) :=
      (List.filter_sublist _).map _
    exact hn.sublist hsub
  have hnActive : ((activeTrackersFor db pid).map (fun t => t.id)).Nodup := by
    have hsub : List.Sublist ((activeTrackersFor db pid).map (fun t => t.id))
        (db.trackers.map (fun t => t.id)) :=
      (List.filter_sublist _).map _
    exact hn.sublist hsub
  refine ⟨checkAlerts_alerts db, ?_, ?_, checkPriceAlerts_alerts db pid np, ?_, ?_⟩
  · intro a ha
    obtain ⟨t, _, rfl⟩ := List.mem_map.mp ha
    exact checkAlertsRowFor_status db t
  · intro t ht
    exact countP_alert_rows (checkAlertsQualifies db) (checkAlertsRowFor db)
      (checkAlertsRowFor_trackerId db) (alertableTrackers db) t hnAlertable ht
  · intro a ha
    obtain ⟨t, _, rfl⟩ := List.mem_map.mp ha
    rfl
  · intro t ht
    exact countP_alert_rows (pendingQualifies np) (pendingRowFor np)
      (fun _ => rfl) (activeTrackersFor db pid) t hnActive ht

/-- **C3, witness.** -/
theorem claim_C3_witness :
    (checkAlerts alertDb).1.alerts =
      alertDb.alerts ++
        ((alertableTrackers alertDb).filter (checkAlertsQualifies alertDb)).map
          (checkAlertsRowFor alertDb) :=
  (claim_C3 alertDb 1 ⟨90, 1⟩ (by decide)).1

/-! ## Claim C4 — `oldPrice` semantics -/

/-- Inserting below everything appends at the end. -/
theorem insertDescSnap_append (s : SnapshotRow) :
    ∀ (r : List SnapshotRow), (∀ y ∈ r, ¬(y.snapshotAt ≤ s.snapshotAt)) →
      insertDescSnap s r = r ++ [s] := by
  intro r
  induction r with
  | nil => intro _; rfl
  | cons a r ih =>
      intro h
      unfold insertDescSnap
      rw [if_neg (h a (List.mem_cons_self a r))]
      rw [ih (fun y hy => h y (List.mem_cons_of_mem a hy))]
      rfl

/-- The store's descending order on a strictly ascending history is its
reversal. -/
theorem sortDescSnap_of_sorted :
    ∀ (l : List SnapshotRow),
      l.Pairwise (fun a b => a.snapshotAt < b.snapshotAt) →
      sortDescSnap l = l.reverse := by
  intro l
  induction l with
  | nil => intro _; rfl
  | cons a l ih =>
      intro h
      rw [List.pairwise_cons] at h
      show insertDescSnap a (sortDescSnap l) = (a :: l).reverse
      rw [ih h.2]
      rw [insertDescSnap_append a l.reverse
        (fun y hy => by
          have := h.1 y (List.mem_reverse.mp hy)
          omega)]
      simp

/-- **C4, counterexample.**  The product has two snapshots (150, then the
current 90) and the alert is emitted via the scraper's inline path; the
claim says its `oldPrice` must be the previous snapshot price 150, but
the row carries the target price 100. -/
theorem claim_C4_counterexample :
    (checkPriceAlerts alertDb 1 ⟨90, 1⟩).alerts =
      [⟨7, 1, ⟨100, 1⟩, ⟨90, 1⟩, "PENDING"⟩] ∧
    2 ≤ (alertDb.snapshots.filter (fun s => s.productId = 1)).length ∧
    ((alertDb.snapshots.filter (fun s => s.productId = 1)).reverse[1]?).map
        (fun s => s.price) = some ⟨150, 1⟩ ∧
    jqEqv ⟨100, 1⟩ ⟨150, 1⟩ = false := by
  decide

/-- **C4, amended.**  Only the scheduled check-alerts pass implements the
claimed `oldPrice` semantics: with the snapshot table in ascending
`snapshotAt` order, its `oldPrice` is the price of the most recent
snapshot strictly before the current one (index 1 of the reversed
per-product history) when the product has at least two snapshots, else
the target price.  On the scraper's inline path, every emitted alert
carries the tracker's `targetPrice` as `oldPrice` regardless of how many
snapshots exist. -/
theorem claim_C4 (db : DB) (pid : Nat) (np g : JQ)
    (hsorted : db.snapshots.Pairwise (fun a b => a.snapshotAt < b.snapshotAt)) :
    (checkAlertsOldPrice db pid g =
      (if 2 ≤ (db.snapshots.filter (fun s => s.productId = pid)).length then
        (((db.snapshots.filter (fun s => s.productId = pid)).reverse[1]?).map
            (fun s => s.price)).getD g
      else g)) ∧
    (∀ a ∈ (checkPriceAlerts db pid np).alerts, a ∉ db.alerts →
      ∃ t ∈ db.trackers, a.trackerId = t.id ∧ t.targetPrice = some a.oldPrice) := by
  constructor
  · have hsf : (db.snapshots.filter (fun s => s.productId = pid)).Pairwise
        (fun a b => a.snapshotAt < b.snapshotAt) :=
      hsorted.sublist (List.filter_sublist _)
    unfold checkAlertsOldPrice querySnapshotsDesc
    rw [sortDescSnap_of_sorted _ hsf]
    rcases hlen : (db.snapshots.filter (fun s => s.productId = pid)).length with _ | n
    · have hnil : (db.snapshots.filter (fun s => s.productId = pid)) = [] :=
        List.length_eq_zero.mp hlen
      simp [hnil]
    · rcases n with _ | m
      · have hone : (db.snapshots.filter (fun s => s.productId = pid)).reverse.length = 1 := by
          simp [hlen]
        rw [if_neg (by simp [hone]), if_neg (by omega)]
      · have hlen2 : 2 ≤ (db.snapshots.filter (fun s => s.productId = pid)).reverse.length := by
          simp [hlen]
        rw [if_pos (by simp only [List.length_take, List.length_reverse, hlen]; omega),
            if_pos (by omega)]
        rw [List.getElem?_take]
        simp
  · intro a ha hnotin
    rw [checkPriceAlerts_alerts] at ha
    rcases List.mem_append.mp ha with hold | hnew
    · exact absurd hold hnotin
    · obtain ⟨t, htf, rfl⟩ := List.mem_map.mp hnew
      have htq := List.of_mem_filter htf
      have htl : t ∈ activeTrackersFor db pid := List.mem_of_mem_filter htf
      have htdb : t ∈ db.trackers := List.mem_of_mem_filter htl
      refine ⟨t, htdb, rfl, ?_⟩
      unfold pendingQualifies at htq
      cases htp : t.targetPrice with
      | none => rw [htp] at htq; cases htq
      | some g' => simp [pendingRowFor, htp]

/-- **C4, witness** (the scheduled-path conjunct at the concrete store:
two snapshots exist, and `oldPrice` resolves to the previous snapshot
price). -/
theorem claim_C4_witness :
    checkAlertsOldPrice alertDb 1 ⟨100, 1⟩ =
      (if 2 ≤ (alertDb.snapshots.filter (fun s => s.productId = 1)).length then
        (((alertDb.snapshots.filter (fun s => s.productId = 1)).reverse[1]?).map
            (fun s => s.price)).getD ⟨100, 1⟩
      else ⟨100, 1⟩) :=
  (claim_C4 alertDb 1 ⟨90, 1⟩ ⟨100, 1⟩ (by decide)).1

/-! ## Claim C2 — batch failure isolation and accounting -/

/-- The timestamp-free view of a scrape log row. -/
def logView (lg : LogRow) : Nat × String × Option String :=
  (lg.productId, lg.status, lg.errorMessage)

/-- Did this product's scrape settle rejected? -/
def itemFailed (outcomes : Nat → Except String ScrapedProduct)
    (p : ProductRow) : Bool :=
  match outcomes p.id with
  | .ok _ => false
  | .error _ => true

/-- The log entry the per-item pipeline writes for this product. -/
def itemLog (outcomes : Nat → Except String ScrapedProduct)
    (p : ProductRow) : Nat × String × Option String :=
  match outcomes p.id with
  | .ok _ => (p.id, "SUCCESS", none)
  | .error e => (p.id, "FAILED", some e)

theorem scraperServe_ok_snd (db : DB) (pid : Nat) (pd : ScrapedProduct) :
    (scraperServe db pid (.ok pd)).2 = .ok () := rfl

theorem scraperServe_err_snd (db : DB) (pid : Nat) (e : String) :
    (scraperServe db pid (.error e)).2 = .error e := rfl

theorem scraperServe_ok_logs (db : DB) (pid : Nat) (pd : ScrapedProduct) :
    (scraperServe db pid (.ok pd)).1.scrapeLogs.map logView =
      db.scrapeLogs.map logView ++ [(pid, "SUCCESS", none)] := by
  show ((checkPriceAlerts _ _ _).scrapeLogs).map logView = _
  rw [checkPriceAlerts, checkPriceAlerts_fold_logs]
  simp [dbInsertLog, dbInsertSnapshot, dbUpdateProduct, logView]

theorem scraperServe_err_logs (db : DB) (pid : Nat) (e : String) :
    (scraperServe db pid (.error e)).1.scrapeLogs.map logView =
      db.scrapeLogs.map logView ++ [(pid, "FAILED", some e)] := by
  show ((dbInsertLog db pid "FAILED" (some e)).scrapeLogs).map logView = _
  simp [dbInsertLog, logView]

/-- Settled accounting of one flat batch: every invoke promise fulfills,
so `updated` counts every item and `failed` never increments; one log
entry per item is still appended in order by the scraper function
itself. -/
theorem runBatch_spec (outcomes : Nat → Except String ScrapedProduct) :
    ∀ (l : List ProductRow) (db : DB),
      (runBatch outcomes db l).2.1 = l.length ∧
      (runBatch outcomes db l).2.2 = 0 ∧
      (runBatch outcomes db l).1.scrapeLogs.map logView =
        db.scrapeLogs.map logView ++ l.map (itemLog outcomes) := by
  intro l
  induction l with
  | nil => intro db; refine ⟨rfl, rfl, by simp [runBatch]⟩
  | cons p l ih =>
      intro db
      cases ho : outcomes p.id with
      | ok pd =>
          have hil : itemLog outcomes p = (p.id, "SUCCESS", none) := by
            simp [itemLog, ho]
          simp only [runBatch, ho]
          obtain ⟨ihu, ihf, ihl⟩ := ih (scraperServe db p.id (.ok pd)).1
          refine ⟨?_, ihf, ?_⟩
          · rw [ihu]
            simp
          · rw [ihl, scraperServe_ok_logs]
            simp [hil]
      | error e =>
          have hil : itemLog outcomes p = (p.id, "FAILED", some e) := by
            simp [itemLog, ho]
          simp only [runBatch, ho]
          obtain ⟨ihu, ihf, ihl⟩ := ih (scraperServe db p.id (.error e)).1
          refine ⟨?_, ihf, ?_⟩
          · rw [ihu]
            simp
          · rw [ihl, scraperServe_err_logs]
            simp [hil]

/-- Settling a concatenation of item lists composes. -/
theorem runBatch_append (outcomes : Nat → Except String ScrapedProduct) :
    ∀ (l₁ l₂ : List ProductRow) (db : DB),
      (runBatch outcomes db (l₁ ++ l₂)).1 =
        (runBatch outcomes (runBatch outcomes db l₁).1 l₂).1 ∧
      (runBatch outcomes db (l₁ ++ l₂)).2.1 =
        (runBatch outcomes db l₁).2.1 +
          (runBatch outcomes (runBatch outcomes db l₁).1 l₂).2.1 ∧
      (runBatch outcomes db (l₁ ++ l₂)).2.2 =
        (runBatch outcomes db l₁).2.2 +
          (runBatch outcomes (runBatch outcomes db l₁).1 l₂).2.2 := by
  intro l₁
  induction l₁ with
  | nil =>
      intro l₂ db
      refine ⟨rfl, ?_, ?_⟩ <;> simp [runBatch]
  | cons p l₁ ih =>
      intro l₂ db
      obtain ⟨ihd, ihu, ihf⟩ := ih l₂ (scraperServe db p.id (outcomes p.id)).1
      simp only [List.cons_append, runBatch]
      refine ⟨by simp [ihd], ?_, ?_⟩
      · simp [ihu]
        try omega
      · simp [ihf]
        try omega

/-- The chunks of the batch loop concatenate back to the item list. -/
theorem chunks5Aux_flatten :
    ∀ (xs acc : List ProductRow) (k : Nat),
      (chunks5Aux acc k xs).flatten = acc.reverse ++ xs := by
  intro xs
  induction xs with
  | nil => intro acc k; simp [chunks5Aux]
  | cons x xs ih =>
      intro acc k
      cases k with
      | zero => simp [chunks5Aux, ih]
      | succ k => simp [chunks5Aux, ih]

theorem chunks5_flatten (l : List ProductRow) : (chunks5 l).flatten = l := by
  cases l with
  | nil => rfl
  | cons x xs => simp [chunks5, chunks5Aux_flatten]

/-- Batching is observationally irrelevant: the batch loop settles as a
single flat pass. -/
theorem runBatches_eq (outcomes : Nat → Except String ScrapedProduct)
    (l : List ProductRow) (db : DB) :
    runBatches outcomes db l = runBatch outcomes db l := by
  have key :
      ∀ (cs : List (List ProductRow)) (db : DB) (u f : Nat),
        cs.foldl
          (fun acc batch =>
            let r := runBatch outcomes acc.1 batch
            (r.1, acc.2.1 + r.2.1, acc.2.2 + r.2.2)) (db, u, f) =
        ((runBatch outcomes db cs.flatten).1,
          u + (runBatch outcomes db cs.flatten).2.1,
          f + (runBatch outcomes db cs.flatten).2.2) := by
    intro cs
    induction cs with
    | nil => intro db u f; simp [runBatch]
    | cons c cs ih =>
        intro db u f
        rw [List.foldl_cons]
        show cs.foldl _
            ((runBatch outcomes db c).1,
              u + (runBatch outcomes db c).2.1,
              f + (runBatch outcomes db c).2.2) = _
        rw [ih]
        obtain ⟨hd, hu, hf⟩ := runBatch_append outcomes c cs.flatten db
        rw [List.flatten_cons, hd, hu, hf]
        refine congrArg₂ _ rfl (congrArg₂ _ ?_ ?_) <;> omega
  show (chunks5 l).foldl _ (db, 0, 0) = _
  rw [key, chunks5_flatten]
  simp

theorem checkAlertsStep_logs (acc : DB × Nat × Nat) (t : TrackerRow) :
    (checkAlertsStep acc t).1.scrapeLogs = acc.1.scrapeLogs := by
  rw [checkAlertsStep_eq]
  by_cases h₁ : checkAlertsQualifies acc.1 t = true
  · rw [if_pos h₁]
    simp [dbInsertAlert]
  · rw [if_neg (by simp [h₁])]
    by_cases h₂ : ((acc.1.products.find? (fun p => p.id = t.productId)).isNone = true)
    · rw [if_pos h₂]
    · rw [if_neg h₂]

theorem checkAlerts_fold_logs :
    ∀ (l : List TrackerRow) (acc : DB × Nat × Nat),
      (l.foldl checkAlertsStep acc).1.scrapeLogs = acc.1.scrapeLogs := by
  intro l
  induction l with
  | nil => intro acc; rfl
  | cons t l ih =>
      intro acc
      rw [List.foldl_cons, ih, checkAlertsStep_logs]

theorem checkAlerts_logs (db : DB) :
    (checkAlerts db).1.scrapeLogs = db.scrapeLogs :=
  checkAlerts_fold_logs (alertableTrackers db) (db, 0, 0)

/-- One product id occurs exactly once in a list of products with
pairwise-distinct ids. -/
theorem countP_product_id :
    ∀ (l : List ProductRow) (p : ProductRow),
      (l.map (fun x => x.id)).Nodup → p ∈ l →
      l.countP (fun x => x.id = p.id) = 1 := by
  intro l
  induction l with
  | nil => intro p _ hp; cases hp
  | cons a l ih =>
      intro p hn hp
      rw [List.map_cons, List.nodup_cons] at hn
      obtain ⟨hna, hnl⟩ := hn
      rcases List.mem_cons.mp hp with rfl | hpl
      · have hzero : l.countP (fun x => x.id = p.id) = 0 := by
          rw [List.countP_eq_zero]
          intro x hx
          have : x.id ≠ p.id := by
            intro he
            exact hna (he ▸ List.mem_map_of_mem (fun x => x.id) hx)
          simp [this]
        rw [List.countP_cons, hzero]
        simp
      · have hne : a.id ≠ p.id := by
          intro he
          exact hna (he ▸ List.mem_map_of_mem (fun x => x.id) hpl)
        rw [List.countP_cons, ih p hnl hpl]
        simp [hne]

/-- **C2** (refuting the claimed accounting).  Over the tracked products
of a batch pass in which exactly the item `pf` fails (with message `e`)
and every other item succeeds, the scraper function does write the logs
the claim describes — exactly one FAILED entry, for `pf`, carrying `e`;
`N - 1` SUCCESS entries; one per other item, regardless of `pf`'s
position — but the report is `updated = N, failed = 0`, not the claimed
`updated = N - 1, failed = 1`: `functions.invoke` resolves with a
data/error pair even on the scraper's 500 response, so
`Promise.allSettled` sees every promise fulfilled and the `failed++`
branch of the batch loop is unreachable. -/
theorem claim_C2 (db : DB) (outcomes : Nat → Except String ScrapedProduct)
    (pf : ProductRow) (e : String)
    (hmem : pf ∈ trackedProducts db)
    (herr : outcomes pf.id = .error e)
    (hok : ∀ q ∈ trackedProducts db, q.id ≠ pf.id → ∃ pd, outcomes q.id = .ok pd)
    (hnodup : ((trackedProducts db).map (fun p => p.id)).Nodup) :
    (updateAllPrices db outcomes).2.1 = (trackedProducts db).length ∧
    (updateAllPrices db outcomes).2.1 ≠ (trackedProducts db).length - 1 ∧
    (updateAllPrices db outcomes).2.2.1 = 0 ∧
    (updateAllPrices db outcomes).2.2.2 = (trackedProducts db).length ∧
    ((((updateAllPrices db outcomes).1.scrapeLogs.map logView).drop
        db.scrapeLogs.length).filter (fun v => v.2.1 = "FAILED") =
      [(pf.id, "FAILED", some e)]) ∧
    ((((updateAllPrices db outcomes).1.scrapeLogs.map logView).drop
        db.scrapeLogs.length).countP (fun v => v.2.1 = "SUCCESS") =
      (trackedProducts db).length - 1) ∧
    (∀ q ∈ trackedProducts db, q.id ≠ pf.id →
      (q.id, "SUCCESS", none) ∈
        (((updateAllPrices db outcomes).1.scrapeLogs.map logView).drop
          db.scrapeLogs.length)) := by
  have hfail : ∀ q ∈ trackedProducts db,
      itemFailed outcomes q = true ↔ q.id = pf.id := by
    intro q hq
    constructor
    · intro hf
      by_contra hne
      obtain ⟨pd, hpd⟩ := hok q hq hne
      simp [itemFailed, hpd] at hf
    · intro he
      simp [itemFailed, he, herr]
  have hlog : ∀ q ∈ trackedProducts db, q.id ≠ pf.id →
      itemLog outcomes q = (q.id, "SUCCESS", none) := by
    intro q hq hne
    obtain ⟨pd, hpd⟩ := hok q hq hne
    simp [itemLog, hpd]
  obtain ⟨hru, hrf, hrl⟩ := runBatch_spec outcomes (trackedProducts db) db
  have hcmp :
      (updateAllPrices db outcomes).2.1 = (runBatch outcomes db (trackedProducts db)).2.1 ∧
      (updateAllPrices db outcomes).2.2.1 = (runBatch outcomes db (trackedProducts db)).2.2 ∧
      (updateAllPrices db outcomes).2.2.2 = (trackedProducts db).length ∧
      (updateAllPrices db outcomes).1.scrapeLogs =
        (runBatch outcomes db (trackedProducts db)).1.scrapeLogs := by
    simp only [updateAllPrices, runBatches_eq]
    exact ⟨trivial, trivial, trivial, checkAlerts_logs _⟩
  have hfone : (trackedProducts db).countP (itemFailed outcomes) = 1 := by
    have hcg : (trackedProducts db).countP (itemFailed outcomes) =
        (trackedProducts db).countP (fun x => x.id = pf.id) := by
      refine List.countP_congr ?_
      intro q hq
      constructor
      · intro h
        simpa using (hfail q hq).mp h
      · intro h
        exact (hfail q hq).mpr (by simpa using h)
    rw [hcg]
    exact countP_product_id (trackedProducts db) pf hnodup hmem
  have hnew :
      (((updateAllPrices db outcomes).1.scrapeLogs.map logView).drop
          db.scrapeLogs.length) =
        (trackedProducts db).map (itemLog outcomes) := by
    rw [hcmp.2.2.2, hrl]
    have hlen : (db.scrapeLogs.map logView).length = db.scrapeLogs.length :=
      List.length_map _ _
    rw [← hlen, List.drop_left]
  obtain ⟨l₁, l₂, hps⟩ := List.append_of_mem hmem
  have hnodup' := hnodup
  rw [hps, List.map_append, List.map_cons] at hnodup'
  have hparts := List.nodup_append.mp hnodup'
  have hnl₁ : pf.id ∉ l₁.map (fun p => p.id) := by
    intro hmem₁
    exact hparts.2.2 hmem₁ (List.mem_cons_self _ _)
  have hnl₂ : pf.id ∉ l₂.map (fun p => p.id) :=
    (List.nodup_cons.mp hparts.2.1).1
  have hqid : ∀ q ∈ l₁ ++ l₂, q.id ≠ pf.id := by
    intro q hql he
    rcases List.mem_append.mp hql with hl | hl
    · exact hnl₁ (he ▸ List.mem_map_of_mem (fun p => p.id) hl)
    · exact hnl₂ (he ▸ List.mem_map_of_mem (fun p => p.id) hl)
  have hmm : ∀ q ∈ l₁ ++ l₂, itemLog outcomes q = (q.id, "SUCCESS", none) := by
    intro q hql
    refine hlog q ?_ (hqid q hql)
    rw [hps]
    rcases List.mem_append.mp hql with hl | hl
    · exact List.mem_append.mpr (Or.inl hl)
    · exact List.mem_append.mpr (Or.inr (List.mem_cons_of_mem pf hl))
  refine ⟨?_, ?_, ?_, hcmp.2.2.1, ?_, ?_, ?_⟩
  · rw [hcmp.1, hru]
  · rw [hcmp.1, hru]
    have hpos : 0 < (trackedProducts db).length := List.length_pos_of_mem hmem
    omega
  · rw [hcmp.2.1, hrf]
  · rw [hnew, hps, List.map_append, List.map_cons]
    have hpflog : itemLog outcomes pf = (pf.id, "FAILED", some e) := by
      simp [itemLog, herr]
    rw [hpflog, List.filter_append, List.filter_cons]
    have hleft : (l₁.map (itemLog outcomes)).filter (fun v => v.2.1 = "FAILED") = [] := by
      rw [List.filter_eq_nil_iff]
      intro v hv
      obtain ⟨q, hq, rfl⟩ := List.mem_map.mp hv
      rw [hmm q (List.mem_append.mpr (Or.inl hq))]
      simp
    have hright : (l₂.map (itemLog outcomes)).filter (fun v => v.2.1 = "FAILED") = [] := by
      rw [List.filter_eq_nil_iff]
      intro v hv
      obtain ⟨q, hq, rfl⟩ := List.mem_map.mp hv
      rw [hmm q (List.mem_append.mpr (Or.inr hq))]
      simp
    rw [hleft, hright]
    simp
  · rw [hnew]
    have hcnt :
        ((trackedProducts db).map (itemLog outcomes)).countP
            (fun v => v.2.1 = "SUCCESS") =
          (trackedProducts db).countP (fun q => !(itemFailed outcomes q)) := by
      rw [List.countP_map]
      refine List.countP_congr ?_
      intro q hq
      cases ho : outcomes q.id <;>
        simp [itemLog, itemFailed, ho, Function.comp]
    rw [hcnt]
    have htot := List.length_eq_countP_add_countP (p := itemFailed outcomes)
      (l := trackedProducts db)
    have hnc : (trackedProducts db).countP (fun a => !(itemFailed outcomes a)) =
        (trackedProducts db).countP (fun a => ¬(itemFailed outcomes a)) := by
      refine List.countP_congr ?_
      intro q _
      simp
    rw [hnc]
    omega
  · intro q hq hne
    rw [hnew]
    have hl := hlog q hq hne
    exact hl ▸ List.mem_map_of_mem (itemLog outcomes) hq

/-- Two tracked products for the batch witness. -/
def batchRow1 : ProductRow :=
  ⟨1, "https://www.amazon.in/a", "P1", "Amazon", ⟨90, 1⟩, none, true, 0⟩

def batchRow2 : ProductRow :=
  ⟨2, "https://www.ajio.com/b", "P2", "Ajio", ⟨50, 1⟩, none, true, 0⟩

def batchDb : DB :=
  { products := [batchRow1, batchRow2]
    snapshots := []
    trackers := [⟨1, 7, 1, some ⟨100, 1⟩, true⟩, ⟨2, 7, 2, none, true⟩]
    alerts := []
    scrapeLogs := []
    profiles := [⟨7, "user@example.com"⟩]
    nextId := 3
    clock := 0 }

/-- Scrape outcomes in which exactly product 2's fetch times out. -/
def batchOutcomes : Nat → Except String ScrapedProduct := fun n =>
  if n = 1 then .ok ⟨"P1", ⟨80, 1⟩, none, true⟩ else .error "Request timed out"

/-- **C2, witness.** -/
theorem claim_C2_witness :
    (updateAllPrices batchDb batchOutcomes).2.1 = (trackedProducts batchDb).length ∧
    (updateAllPrices batchDb batchOutcomes).2.1 ≠ (trackedProducts batchDb).length - 1 ∧
    (updateAllPrices batchDb batchOutcomes).2.2.1 = 0 ∧
    (updateAllPrices batchDb batchOutcomes).2.2.2 = (trackedProducts batchDb).length ∧
    ((((updateAllPrices batchDb batchOutcomes).1.scrapeLogs.map logView).drop
        batchDb.scrapeLogs.length).filter (fun v => v.2.1 = "FAILED") =
      [(batchRow2.id, "FAILED", some "Request timed out")]) ∧
    ((((updateAllPrices batchDb batchOutcomes).1.scrapeLogs.map logView).drop
        batchDb.scrapeLogs.length).countP (fun v => v.2.1 = "SUCCESS") =
      (trackedProducts batchDb).length - 1) ∧
    (∀ q ∈ trackedProducts batchDb, q.id ≠ batchRow2.id →
      (q.id, "SUCCESS", none) ∈
        (((updateAllPrices batchDb batchOutcomes).1.scrapeLogs.map logView).drop
          batchDb.scrapeLogs.length)) :=
  claim_C2 batchDb batchOutcomes batchRow2 "Request timed out"
    (by decide) (by decide)
    (by
      intro q hq hne
      have htp : trackedProducts batchDb = [batchRow1, batchRow2] := by decide
      rw [htp] at hq
      simp only [List.mem_cons, List.not_mem_nil, or_false] at hq
      rcases hq with rfl | rfl
      · exact ⟨⟨"P1", ⟨80, 1⟩, none, true⟩, rfl⟩
      · exact absurd rfl hne)
    (by decide)

/-! ## Claim C10 — product detail statistics -/

/-- Modelled from the spec's words: rounding to two decimal places,
halves up (`Math.round(x * 100) / 100`). -/
def round2 (x : ℚ) : ℚ := (⌊x * 100 + 1 / 2⌋ : ℚ) / 100

theorem toRat_jqAdd (a b : JQ) (ha : 0 < a.den) (hb : 0 < b.den) :
    (jqAdd a b).toRat = a.toRat + b.toRat := by
  unfold jqAdd JQ.toRat
  have ha' : (a.den : ℚ) ≠ 0 := by
    exact_mod_cast Nat.pos_iff_ne_zero.mp ha
  have hb' : (b.den : ℚ) ≠ 0 := by
    exact_mod_cast Nat.pos_iff_ne_zero.mp hb
  push_cast
  field_simp
  try ring

theorem jqAdd_den_pos (a b : JQ) (ha : 0 < a.den) (hb : 0 < b.den) :
    0 < (jqAdd a b).den := Nat.mul_pos ha hb

theorem toRat_sumFold :
    ∀ (l : List JQ) (acc : JQ), (∀ q ∈ l, 0 < q.den) → 0 < acc.den →
      (l.foldl jqAdd acc).toRat = acc.toRat + (l.map JQ.toRat).sum ∧
      0 < (l.foldl jqAdd acc).den := by
  intro l
  induction l with
  | nil => intro acc _ hacc; exact ⟨by simp, hacc⟩
  | cons q l ih =>
      intro acc hwf hacc
      have hq : 0 < q.den := hwf q (List.mem_cons_self q l)
      have hrest : ∀ x ∈ l, 0 < x.den := fun x hx => hwf x (List.mem_cons_of_mem q hx)
      obtain ⟨ihv, ihd⟩ := ih (jqAdd acc q) hrest (jqAdd_den_pos acc q hacc hq)
      refine ⟨?_, ihd⟩
      rw [List.foldl_cons, ihv, toRat_jqAdd acc q hacc hq, List.map_cons, List.sum_cons]
      ring

/-- `Math.round` over the exact-rational model is floor of `x + 1/2`. -/
theorem jqRound_eq_floor (a : JQ) (h : 0 < a.den) :
    jqRound a = ⌊a.toRat + 1 / 2⌋ := by
  unfold jqRound JQ.toRat
  rw [Int.fdiv_eq_ediv _ (by omega)]
  have key := Rat.floor_intCast_div_natCast (2 * a.num + a.den) (2 * a.den)
  have hd : (a.den : ℚ) ≠ 0 := by
    exact_mod_cast Nat.pos_iff_ne_zero.mp h
  have hval : ((2 * a.num + (a.den : Int) : Int) : ℚ) / ((2 * a.den : ℕ) : ℚ) =
      (a.num : ℚ) / (a.den : ℚ) + 1 / 2 := by
    push_cast
    field_simp
    ring
  rw [hval] at key
  have hcast : ((2 * a.den : ℕ) : ℤ) = 2 * (a.den : ℤ) := by push_cast; ring
  rw [hcast] at key
  exact key.symm

theorem jqLe_refl (a : JQ) : jqLe a a = true := by simp [jqLe]

theorem jqLe_total (a b : JQ) : jqLe a b = true ∨ jqLe b a = true := by
  unfold jqLe
  rcases Int.le_total (a.num * b.den) (b.num * a.den) with h | h
  · exact Or.inl (by simpa using h)
  · exact Or.inr (by simpa using h)

theorem jqLe_trans {a b c : JQ} (hb : 0 < b.den)
    (h₁ : jqLe a b = true) (h₂ : jqLe b c = true) : jqLe a c = true := by
  unfold jqLe at h₁ h₂ ⊢
  rw [decide_eq_true_eq] at h₁ h₂ ⊢
  have hb' : (0 : Int) < b.den := by exact_mod_cast hb
  have hcd : (0 : Int) ≤ c.den := Int.natCast_nonneg _
  have had : (0 : Int) ≤ a.den := Int.natCast_nonneg _
  nlinarith [mul_le_mul_of_nonneg_right h₁ hcd, mul_le_mul_of_nonneg_right h₂ had]

/-- The `Math.min` fold returns a member below every member. -/
theorem minFold_spec :
    ∀ (l : List JQ) (a : JQ), (∀ q ∈ a :: l, 0 < q.den) →
      (l.foldl (fun x y => if jqLe x y then x else y) a ∈ a :: l) ∧
      (∀ q ∈ a :: l, jqLe (l.foldl (fun x y => if jqLe x y then x else y) a) q = true) := by
  intro l
  induction l with
  | nil =>
      intro a _
      refine ⟨List.mem_cons_self a [], ?_⟩
      intro q hq
      rcases List.mem_cons.mp hq with rfl | h
      · exact jqLe_refl q
      · cases h
  | cons b l ih =>
      intro a hwf
      have ha : 0 < a.den := hwf a (List.mem_cons_self a _)
      have hb : 0 < b.den := hwf b (List.mem_cons_of_mem a (List.mem_cons_self b l))
      have hwf' : ∀ q ∈ (if jqLe a b then a else b) :: l, 0 < q.den := by
        intro q hq
        rcases List.mem_cons.mp hq with rfl | h
        · by_cases hab : jqLe a b = true
          · simpa [hab] using ha
          · simpa [Bool.of_not_eq_true hab] using hb
        · exact hwf q (List.mem_cons_of_mem a (List.mem_cons_of_mem b h))
      obtain ⟨ihm, ihle⟩ := ih (if jqLe a b then a else b) hwf'
      have hres : 0 < (if jqLe a b then a else b).den :=
        hwf' _ (List.mem_cons_self _ _)
      constructor
      · rw [List.foldl_cons]
        rcases List.mem_cons.mp ihm with he | h
        · rw [he]
          by_cases hab : jqLe a b = true
          · simp [hab]
          · simp [Bool.of_not_eq_true hab]
        · exact List.mem_cons_of_mem a (List.mem_cons_of_mem b h)
      · intro q hq
        rw [List.foldl_cons]
        have hself := ihle _ (List.mem_cons_self _ _)
        rcases List.mem_cons.mp hq with rfl | h
        · by_cases hab : jqLe q b = true
          · simpa [hab] using ihle _ (List.mem_cons_self _ _)
          · have hba : jqLe b q = true := by
              rcases jqLe_total q b with h' | h'
              · exact absurd h' hab
              · exact h'
            have : jqLe (l.foldl (fun x y => if jqLe x y then x else y)
                (if jqLe q b then q else b)) b = true := by
              simpa [Bool.of_not_eq_true hab] using hself
            exact jqLe_trans hb this hba
        · rcases List.mem_cons.mp h with rfl | h'
          · by_cases hab : jqLe a q = true
            · have : jqLe (l.foldl (fun x y => if jqLe x y then x else y)
                  (if jqLe a q then a else q)) a = true := by
                simpa [hab] using hself
              exact jqLe_trans ha this hab
            · simpa [Bool.of_not_eq_true hab] using hself
          · exact ihle q (List.mem_cons_of_mem _ h')

/-- The `Math.max` fold returns a member above every member. -/
theorem maxFold_spec :
    ∀ (l : List JQ) (a : JQ), (∀ q ∈ a :: l, 0 < q.den) →
      (l.foldl (fun x y => if jqLe x y then y else x) a ∈ a :: l) ∧
      (∀ q ∈ a :: l, jqLe q (l.foldl (fun x y => if jqLe x y then y else x) a) = true) := by
  intro l
  induction l with
  | nil =>
      intro a _
      refine ⟨List.mem_cons_self a [], ?_⟩
      intro q hq
      rcases List.mem_cons.mp hq with rfl | h
      · exact jqLe_refl q
      · cases h
  | cons b l ih =>
      intro a hwf
      have ha : 0 < a.den := hwf a (List.mem_cons_self a _)
      have hb : 0 < b.den := hwf b (List.mem_cons_of_mem a (List.mem_cons_self b l))
      have hwf' : ∀ q ∈ (if jqLe a b then b else a) :: l, 0 < q.den := by
        intro q hq
        rcases List.mem_cons.mp hq with rfl | h
        · by_cases hab : jqLe a b = true
          · simpa [hab] using hb
          · simpa [Bool.of_not_eq_true hab] using ha
        · exact hwf q (List.mem_cons_of_mem a (List.mem_cons_of_mem b h))
      obtain ⟨ihm, ihle⟩ := ih (if jqLe a b then b else a) hwf'
      have hres : 0 < (if jqLe a b then b else a).den :=
        hwf' _ (List.mem_cons_self _ _)
      constructor
      · rw [List.foldl_cons]
        rcases List.mem_cons.mp ihm with he | h
        · rw [he]
          by_cases hab : jqLe a b = true
          · simp [hab]
          · simp [Bool.of_not_eq_true hab]
        · exact List.mem_cons_of_mem a (List.mem_cons_of_mem b h)
      · intro q hq
        rw [List.foldl_cons]
        have hself := ihle _ (List.mem_cons_self _ _)
        rcases List.mem_cons.mp hq with rfl | h
        · by_cases hab : jqLe q b = true
          · have hmid : jqLe b (l.foldl (fun x y => if jqLe x y then y else x)
                (if jqLe q b then b else q)) = true := by
              simpa [hab] using hself
            exact jqLe_trans hb hab hmid
          · simpa [Bool.of_not_eq_true hab] using hself
        · rcases List.mem_cons.mp h with rfl | h'
          · by_cases hab : jqLe a q = true
            · simpa [hab] using hself
            · have hba : jqLe q a = true := by
                rcases jqLe_total a q with h' | h'
                · exact absurd h' hab
                · exact h'
              have hmid : jqLe a (l.foldl (fun x y => if jqLe x y then y else x)
                  (if jqLe a q then q else a)) = true := by
                simpa [Bool.of_not_eq_true hab] using hself
              exact jqLe_trans ha hba hmid
          · exact ihle q (List.mem_cons_of_mem _ h')

theorem toRat_jqMulNat (a : JQ) (n : Nat) : (jqMulNat a n).toRat = a.toRat * n := by
  unfold jqMulNat JQ.toRat
  push_cast
  ring

theorem toRat_jqDivNat (a : JQ) (n : Nat) : (jqDivNat a n).toRat = a.toRat / n := by
  unfold jqDivNat JQ.toRat
  push_cast
  rw [div_div]

/-- **C10.**  With a well-formed store (positive denominators; the
product's `latest_price` a two-decimal value, as the `DECIMAL(10,2)`
column guarantees), the detail statistics degrade to `latestPrice` on an
empty 30-day history, and on a non-empty history `lowestPrice` and
`highestPrice` are the minimum and maximum of the history prices while
`avgPrice` is their arithmetic mean rounded to two decimal places. -/
theorem claim_C10 (prices : List JQ) (latest : JQ)
    (hwfp : ∀ q ∈ prices, 0 < q.den) (hwl : 0 < latest.den)
    (hdec : ∃ k : Int, latest.toRat = (k : ℚ) / 100) :
    (prices = [] →
      (productStatistics prices latest).lowestPrice = latest ∧
      (productStatistics prices latest).highestPrice = latest ∧
      (productStatistics prices latest).avgPrice.toRat = latest.toRat) ∧
    (prices ≠ [] →
      ((productStatistics prices latest).lowestPrice ∈ prices ∧
        ∀ q ∈ prices, jqLe (productStatistics prices latest).lowestPrice q = true) ∧
      ((productStatistics prices latest).highestPrice ∈ prices ∧
        ∀ q ∈ prices, jqLe q (productStatistics prices latest).highestPrice = true) ∧
      (productStatistics prices latest).avgPrice.toRat =
        round2 ((prices.map JQ.toRat).sum / (prices.length : ℚ))) := by
  constructor
  · intro he
    subst he
    have hps : productStatistics [] latest =
        ⟨latest, latest, ⟨jqRound (jqMulNat latest 100), 100⟩⟩ := rfl
    rw [hps]
    refine ⟨rfl, rfl, ?_⟩
    obtain ⟨k, hk⟩ := hdec
    have hround : jqRound (jqMulNat latest 100) = ⌊(jqMulNat latest 100).toRat + 1 / 2⌋ :=
      jqRound_eq_floor _ (by simpa [jqMulNat] using hwl)
    show (↑(jqRound (jqMulNat latest 100)) : ℚ) / ↑(100 : ℕ) = latest.toRat
    rw [hround, toRat_jqMulNat, hk]
    push_cast
    have h100 : ((k : ℚ) / 100) * 100 = (k : ℚ) := by
      field_simp
    rw [h100]
    have hfl : ⌊(k : ℚ) + 1 / 2⌋ = k := by
      rw [add_comm, Int.floor_add_int]
      norm_num
    rw [hfl]
  · intro hne
    obtain ⟨h, t, rfl⟩ := List.exists_cons_of_ne_nil hne
    have hlen : 0 < (h :: t).length := by simp
    have hmin := minFold_spec t h hwfp
    have hmax := maxFold_spec t h hwfp
    have hlow : (productStatistics (h :: t) latest).lowestPrice = jqMinList (h :: t) := by
      show (if 0 < (h :: t).length then jqMinList (h :: t) else latest) = _
      rw [if_pos hlen]
    have hhigh : (productStatistics (h :: t) latest).highestPrice = jqMaxList (h :: t) := by
      show (if 0 < (h :: t).length then jqMaxList (h :: t) else latest) = _
      rw [if_pos hlen]
    refine ⟨?_, ?_, ?_⟩
    · rw [hlow]
      exact hmin
    · rw [hhigh]
      exact hmax
    · obtain ⟨hsum, hsden⟩ := toRat_sumFold (h :: t) ⟨0, 1⟩ hwfp (by decide)
      have havg : (productStatistics (h :: t) latest).avgPrice =
          ⟨jqRound (jqMulNat (jqDivNat ((h :: t).foldl jqAdd ⟨0, 1⟩)
            (h :: t).length) 100), 100⟩ := by
        show (⟨jqRound (jqMulNat (if 0 < (h :: t).length then
            jqDivNat ((h :: t).foldl jqAdd ⟨0, 1⟩) (h :: t).length
          else latest) 100), 100⟩ : JQ) = _
        rw [if_pos hlen]
      rw [havg]
      have hdpos : 0 < (jqMulNat (jqDivNat ((h :: t).foldl jqAdd ⟨0, 1⟩)
          (h :: t).length) 100).den := by
        simpa [jqMulNat, jqDivNat] using Nat.mul_pos hsden hlen
      show (↑(jqRound _) : ℚ) / ↑(100 : ℕ) = _
      rw [jqRound_eq_floor _ hdpos, toRat_jqMulNat, toRat_jqDivNat, hsum]
      have hz : (⟨0, 1⟩ : JQ).toRat = 0 := by
        simp [JQ.toRat]
      rw [hz, zero_add]
      unfold round2
      push_cast
      ring_nf

/-- **C10, witness** (the non-empty conjunct at a concrete history). -/
theorem claim_C10_witness :
    ((productStatistics [⟨150, 1⟩, ⟨90, 1⟩] ⟨0, 1⟩).lowestPrice ∈
        ([⟨150, 1⟩, ⟨90, 1⟩] : List JQ) ∧
      ∀ q ∈ ([⟨150, 1⟩, ⟨90, 1⟩] : List JQ),
        jqLe (productStatistics [⟨150, 1⟩, ⟨90, 1⟩] ⟨0, 1⟩).lowestPrice q = true) ∧
    ((productStatistics [⟨150, 1⟩, ⟨90, 1⟩] ⟨0, 1⟩).highestPrice ∈
        ([⟨150, 1⟩, ⟨90, 1⟩] : List JQ) ∧
      ∀ q ∈ ([⟨150, 1⟩, ⟨90, 1⟩] : List JQ),
        jqLe q (productStatistics [⟨150, 1⟩, ⟨90, 1⟩] ⟨0, 1⟩).highestPrice = true) ∧
    (productStatistics [⟨150, 1⟩, ⟨90, 1⟩] ⟨0, 1⟩).avgPrice.toRat =
      round2 ((([⟨150, 1⟩, ⟨90, 1⟩] : List JQ).map JQ.toRat).sum /
        ((([⟨150, 1⟩, ⟨90, 1⟩] : List JQ).length : ℚ))) :=
  (claim_C10 [⟨150, 1⟩, ⟨90, 1⟩] ⟨0, 1⟩ (by decide) (by decide)
    ⟨0, by norm_num [JQ.toRat]⟩).2 (by decide)
